import Mathlib

/-!
Verification of the caching/aggregation core of the pijuwebui music browser
(`src/main.py`): the `Cache` class with its four `ensure_*` operations, the
JSON-to-entity normalization (`add_album_from_json`, `add_artist_from_json`),
the genre-contents deduplication and sorting, and the anchor derivation.

The embedding translates the Python code shallowly:
- Python exceptions (`raise`, `flask.abort`, `KeyError`, `ValueError`,
  unbound local names) become an explicit `PyError` value in `Except`;
- Python dicts become insertion-ordered association lists, matching dict
  iteration/update semantics;
- `list.sort(key=...)` / `sorted(key=...)` become a stable insertion sort
  by a boolean comparator derived from the key function;
- upstream HTTP is a deterministic fake (`Upstream`), and every issued
  request is recorded in an instrumentation log on the cache state, so that
  fetch counts are observable;
- the `genre_view` module is not part of the provided sources; it is
  modelled from the spec as an abstract parameter (`GenreView`).
-/

/-! ## Small string utilities mirroring the Python primitives -/

/-- Models Python `str.lower` character-wise (exact on the ASCII range, which
covers every string the comparators below receive after transliteration). -/
def strLower (s : String) : String :=
  String.mk (s.data.map Char.toLower)

/-- Models the external `unidecode` library on a single character: identity on
ASCII, diacritic-stripping on the accented characters used in this
development; other characters are passed through unchanged. -/
def unidecodeChar (c : Char) : String :=
  if c = 'É' then "E"
  else if c = 'é' then "e"
  else if c = 'È' then "E"
  else if c = 'è' then "e"
  else String.singleton c

/-- Models `unidecode.unidecode` on a string. -/
def unidecodeStr (s : String) : String :=
  String.join (s.data.map unidecodeChar)

/-- Models Python `str.upper` on a single character (exact on ASCII and on the
accented characters used in this development; `upper` of one character is a
string because Python `upper` may expand). -/
def pyUpperChar (c : Char) : String :=
  if c = 'é' then "É"
  else if c = 'è' then "È"
  else String.singleton c.toUpper

/-- Substring test on character lists, mirroring Python's `in` on strings. -/
def isSubstring : List Char → List Char → Bool
  | n, [] => n.isEmpty
  | n, c :: rest => n.isPrefixOf (c :: rest) || isSubstring n rest

/-- Models Python `needle in haystack` on strings (substring containment). -/
def pyInStr (needle hay : String) : Bool :=
  isSubstring needle.data hay.data

/-- `string.ascii_uppercase` from the Python standard library. -/
def ascii_uppercase : String := "ABCDEFGHIJKLMNOPQRSTUVWXYZ"

/-! ## Comparators

Python's `list.sort(key=f)` sorts ascending by the key tuple, comparing
tuples lexicographically and strings by code point. The boolean comparators
below mirror that comparison. -/

/-- Strict lexicographic order on character lists (Python string `<`). -/
def charListLt : List Char → List Char → Bool
  | [], [] => false
  | [], _ :: _ => true
  | _ :: _, [] => false
  | a :: as, b :: bs =>
    if a < b then true else if b < a then false else charListLt as bs

/-- Non-strict lexicographic order on character lists (Python string `<=`). -/
def charListLe : List Char → List Char → Bool
  | [], _ => true
  | _ :: _, [] => false
  | a :: as, b :: bs =>
    if a < b then true else if b < a then false else charListLe as bs

/-- Python string `<`. -/
def strLt (a b : String) : Bool := charListLt a.data b.data

/-- Python string `<=`. -/
def strLe (a b : String) : Bool := charListLe a.data b.data

theorem charListLe_total : ∀ a b : List Char,
    charListLe a b = true ∨ charListLe b a = true := by
  intro a
  induction a with
  | nil => intro b; left; rfl
  | cons x xs ih =>
    intro b
    cases b with
    | nil => right; rfl
    | cons y ys =>
      by_cases hxy : x < y
      · left; simp [charListLe, hxy]
      · by_cases hyx : y < x
        · right; simp [charListLe, hyx, hxy]
        · rcases ih ys with h | h
          · left; simp [charListLe, hxy, hyx, h]
          · right; simp [charListLe, hxy, hyx, h]

theorem charListLe_trans : ∀ a b c : List Char,
    charListLe a b = true → charListLe b c = true → charListLe a c = true := by
  intro a
  induction a with
  | nil => intro b c _ _; rfl
  | cons x xs ih =>
    intro b c hab hbc
    cases b with
    | nil => simp [charListLe] at hab
    | cons y ys =>
      cases c with
      | nil => simp [charListLe] at hbc
      | cons z zs =>
        simp only [charListLe] at hab hbc ⊢
        rcases lt_trichotomy x y with hxy | hxy | hxy
        · rcases lt_trichotomy y z with hyz | hyz | hyz
          · simp [lt_trans hxy hyz]
          · subst hyz; simp [hxy]
          · simp [lt_asymm hyz, hyz] at hbc
        · subst hxy
          rcases lt_trichotomy x z with hxz | hxz | hxz
          · simp [hxz]
          · subst hxz
            simp only [lt_irrefl, if_false] at hab hbc ⊢
            exact ih ys zs hab hbc
          · simp [lt_asymm hxz, hxz] at hbc
        · simp [lt_asymm hxy, hxy] at hab

theorem strLe_total (a b : String) : strLe a b = true ∨ strLe b a = true :=
  charListLe_total a.data b.data

theorem strLe_trans (a b c : String) :
    strLe a b = true → strLe b c = true → strLe a c = true :=
  charListLe_trans a.data b.data c.data

/-! ## A stable insertion sort by a boolean comparator

`sortByLe le` models Python's stable `list.sort` when `le` is the
(total, transitive) comparison induced by the Python sort key. -/

def insertSorted (le : α → α → Bool) (a : α) : List α → List α
  | [] => [a]
  | b :: l => if le a b then a :: b :: l else b :: insertSorted le a l

def sortByLe (le : α → α → Bool) : List α → List α
  | [] => []
  | a :: l => insertSorted le a (sortByLe le l)

theorem insertSorted_perm (le : α → α → Bool) (a : α) :
    ∀ l : List α, List.Perm (insertSorted le a l) (a :: l) := by
  intro l
  induction l with
  | nil => simp [insertSorted]
  | cons b l ih =>
    by_cases h : le a b
    · simp [insertSorted, h]
    · simp only [insertSorted, h, Bool.false_eq_true, if_false]
      exact List.Perm.trans (List.Perm.cons b ih) (List.Perm.swap a b l)

theorem sortByLe_perm (le : α → α → Bool) :
    ∀ l : List α, List.Perm (sortByLe le l) l := by
  intro l
  induction l with
  | nil => simp [sortByLe]
  | cons a l ih =>
    exact List.Perm.trans (insertSorted_perm le a _) (List.Perm.cons a ih)

theorem mem_insertSorted (le : α → α → Bool) (a x : α) (l : List α) :
    x ∈ insertSorted le a l ↔ x = a ∨ x ∈ l := by
  rw [(insertSorted_perm le a l).mem_iff]
  simp

theorem insertSorted_pairwise (le : α → α → Bool)
    (htot : ∀ x y, le x y = true ∨ le y x = true)
    (htrans : ∀ x y z, le x y = true → le y z = true → le x z = true)
    (a : α) : ∀ l : List α,
    l.Pairwise (fun x y => le x y = true) →
    (insertSorted le a l).Pairwise (fun x y => le x y = true) := by
  intro l
  induction l with
  | nil => intro _; simp [insertSorted]
  | cons b l ih =>
    intro h
    rw [List.pairwise_cons] at h
    by_cases hab : le a b
    · simp only [insertSorted, hab, if_pos]
      refine List.Pairwise.cons ?_ (List.Pairwise.cons h.1 h.2)
      intro y hy
      rcases List.mem_cons.mp hy with rfl | hy
      · exact hab
      · exact htrans a b y hab (h.1 y hy)
    · simp only [insertSorted, hab, Bool.false_eq_true, if_false]
      refine List.Pairwise.cons ?_ (ih h.2)
      intro y hy
      rw [mem_insertSorted] at hy
      rcases hy with hy | hy
      · rw [hy]
        rcases htot a b with h' | h'
        · exact absurd h' (by simpa using hab)
        · exact h'
      · exact h.1 y hy

theorem sortByLe_pairwise (le : α → α → Bool)
    (htot : ∀ x y, le x y = true ∨ le y x = true)
    (htrans : ∀ x y z, le x y = true → le y z = true → le x z = true) :
    ∀ l : List α, (sortByLe le l).Pairwise (fun x y => le x y = true) := by
  intro l
  induction l with
  | nil => simp [sortByLe]
  | cons a l ih => exact insertSorted_pairwise le htot htrans a _ ih

theorem filter_insertSorted (le : α → α → Bool) (p : α → Bool)
    (hp : ∀ x y, p x = true → p y = true → le x y = true) (a : α) :
    ∀ l : List α,
    (insertSorted le a l).filter p =
      if p a then a :: l.filter p else l.filter p := by
  intro l
  induction l with
  | nil => by_cases h : p a <;> simp [insertSorted, List.filter, h]
  | cons b l ih =>
    by_cases hab : le a b
    · by_cases ha : p a <;> simp [insertSorted, hab, List.filter, ha]
    · have hnb : p a = true → p b = false := by
        intro ha
        by_cases hb : p b
        · exact absurd (hp a b ha hb) (by simpa using hab)
        · simpa using hb
      by_cases ha : p a
      · have hb := hnb ha
        simp [insertSorted, hab, List.filter, hb, ih, ha]
      · by_cases hb : p b <;>
          simp [insertSorted, hab, List.filter, hb, ih, ha]

/-- Stability of `sortByLe`: the subsequence of elements satisfying a
comparator-saturated predicate (in particular: having one fixed sort key)
is unchanged, i.e. equal keys keep their original relative order. -/
theorem sortByLe_filter_stable (le : α → α → Bool) (p : α → Bool)
    (hp : ∀ x y, p x = true → p y = true → le x y = true) :
    ∀ l : List α, (sortByLe le l).filter p = l.filter p := by
  intro l
  induction l with
  | nil => rfl
  | cons a l ih =>
    by_cases ha : p a <;>
      simp [sortByLe, filter_insertSorted le p hp, ha, ih, List.filter]

/-! ## Association lists: Python dict semantics -/

/-- Python `d.get(k)` / `d[k]` lookup on an insertion-ordered dict. -/
def lookupAssoc {β : Type} (k : String) : List (String × β) → Option β
  | [] => none
  | (k', v) :: rest => if k' = k then some v else lookupAssoc k rest

/-- Python `d[k] = v`: replace in place if the key exists, else append. -/
def upsert {β : Type} (k : String) (v : β) : List (String × β) → List (String × β)
  | [] => [(k, v)]
  | (k', v') :: rest => if k' = k then (k, v) :: rest else (k', v') :: upsert k v rest

/-- Python `defaultdict(list)`: `d[k].append(v)`. -/
def appendAt (k : String) (v : String) :
    List (String × List String) → List (String × List String)
  | [] => [(k, [v])]
  | (k', vs) :: rest =>
    if k' = k then (k', vs ++ [v]) :: rest else (k', vs) :: appendAt k v rest

/-- Python `set.add` modelled with insertion order. -/
def addToSet (x : String) (s : List String) : List String :=
  if x ∈ s then s else s ++ [x]

theorem lookupAssoc_upsert_self {β : Type} (k : String) (v : β) :
    ∀ l : List (String × β), lookupAssoc k (upsert k v l) = some v := by
  intro l
  induction l with
  | nil => simp [upsert, lookupAssoc]
  | cons kv rest ih =>
    obtain ⟨k0, v0⟩ := kv
    by_cases h : k0 = k
    · simp [upsert, h, lookupAssoc]
    · simp [upsert, h, lookupAssoc, ih]

theorem lookupAssoc_upsert_ne {β : Type} (k k' : String) (v : β) (hne : k' ≠ k) :
    ∀ l : List (String × β), lookupAssoc k' (upsert k v l) = lookupAssoc k' l := by
  have hne' : ¬(k = k') := fun h => hne h.symm
  intro l
  induction l with
  | nil => simp [upsert, lookupAssoc, hne']
  | cons kv rest ih =>
    obtain ⟨k0, v0⟩ := kv
    by_cases h : k0 = k
    · simp [upsert, lookupAssoc, h, hne']
    · simp [upsert, lookupAssoc, h, ih]

theorem mem_upsert {β : Type} (k : String) (v : β) (kv : String × β) :
    ∀ l : List (String × β),
    ((l.map Prod.fst : List String)).Nodup →
    kv ∈ upsert k v l → kv = (k, v) ∨ (kv ∈ l ∧ kv.1 ≠ k) := by
  intro l
  induction l with
  | nil => simp [upsert]
  | cons hd rest ih =>
    obtain ⟨k0, v0⟩ := hd
    intro hnd hmem
    simp only [List.map_cons, List.nodup_cons] at hnd
    by_cases h : k0 = k
    · rw [show upsert k v ((k0, v0) :: rest) = (k, v) :: rest by simp [upsert, h]] at hmem
      rcases List.mem_cons.mp hmem with rfl | hmem
      · left; rfl
      · right
        refine ⟨List.mem_cons_of_mem (k0, v0) hmem, ?_⟩
        intro hk
        apply hnd.1
        show k0 ∈ _
        rw [h, ← hk]
        exact List.mem_map_of_mem Prod.fst hmem
    · rw [show upsert k v ((k0, v0) :: rest) = (k0, v0) :: upsert k v rest by
        simp [upsert, h]] at hmem
      rcases List.mem_cons.mp hmem with rfl | hmem
      · exact Or.inr ⟨List.mem_cons_self (k0, v0) rest, h⟩
      · rcases ih hnd.2 hmem with h' | h'
        · exact Or.inl h'
        · exact Or.inr ⟨List.mem_cons_of_mem (k0, v0) h'.1, h'.2⟩

/-- Keys of `upsert`: the new key is present, and no key outside
`k :: keys l` is introduced. -/
theorem keys_upsert_subset {β : Type} (k : String) (v : β) :
    ∀ l : List (String × β),
    ((upsert k v l).map Prod.fst : List String) ⊆ k :: l.map Prod.fst := by
  intro l
  induction l with
  | nil => simp [upsert]
  | cons hd rest ih =>
    obtain ⟨k0, v0⟩ := hd
    by_cases h : k0 = k
    · rw [show upsert k v ((k0, v0) :: rest) = (k, v) :: rest by simp [upsert, h]]
      simp only [List.map_cons]
      intro x hx
      rcases List.mem_cons.mp hx with rfl | hx
      · simp
      · simp only [List.mem_cons]
        right; right
        exact hx
    · rw [show upsert k v ((k0, v0) :: rest) = (k0, v0) :: upsert k v rest by
        simp [upsert, h]]
      simp only [List.map_cons]
      intro x hx
      rcases List.mem_cons.mp hx with rfl | hx
      · simp
      · have := ih hx
        simp only [List.mem_cons] at this ⊢
        tauto

theorem keys_upsert_nodup {β : Type} (k : String) (v : β) :
    ∀ l : List (String × β),
    ((l.map Prod.fst : List String)).Nodup →
    ((upsert k v l).map Prod.fst : List String).Nodup := by
  intro l
  induction l with
  | nil => intro _; simp [upsert]
  | cons hd rest ih =>
    obtain ⟨k0, v0⟩ := hd
    intro h
    simp only [List.map_cons, List.nodup_cons] at h
    by_cases hk : k0 = k
    · rw [show upsert k v ((k0, v0) :: rest) = (k, v) :: rest by simp [upsert, hk]]
      simp only [List.map_cons, List.nodup_cons]
      exact ⟨hk ▸ h.1, h.2⟩
    · rw [show upsert k v ((k0, v0) :: rest) = (k0, v0) :: upsert k v rest by
        simp [upsert, hk]]
      simp only [List.map_cons, List.nodup_cons]
      refine ⟨?_, ih h.2⟩
      intro hmem
      rcases List.mem_cons.mp (keys_upsert_subset k v rest hmem) with h' | h'
      · exact hk h'
      · exact h.1 h'

/-! ## Data model

JSON payload shapes as delivered by the upstream server (§6 of the spec),
and the canonical entities (`namedtuple`s in `src/main.py`). Optional
fields model JSON `null` (Python `None`); Python truthiness on strings
additionally treats `""` as falsy, which the definitions below replicate
where the source uses `if value:`. -/

structure TrackJson where
  link : String
  title : String
  disknumber : Option Int
  tracknumber : Option Int
deriving DecidableEq, Repr

structure AlbumJson where
  link : String
  genres : List String
  artist : Option String
  title : Option String
  releasedate : Option Int
  artwork_link : String
  numberdisks : Int
  tracks : List TrackJson
deriving DecidableEq, Repr

structure GenreJson where
  link : String
  name : String
deriving DecidableEq, Repr

/-- `Track = namedtuple('Track', 'id, title, disknumber, tracknumber')` -/
structure Track where
  id : String
  title : String
  disknumber : Option Int
  tracknumber : Option Int
deriving DecidableEq, Repr

/-- `Album = namedtuple('Album', 'id, artist, title, year, artwork_link,
genre_name, numberdisks, tracks, anchor')` -/
structure Album where
  id : String
  artist : Option String
  title : Option String
  year : Option Int
  artwork_link : String
  genre_name : Option String
  numberdisks : Int
  tracks : List Track
  anchor : String
deriving DecidableEq, Repr

/-- `Artist = namedtuple('Artist', 'name, albums')` -/
structure Artist where
  name : String
  albums : List Album
deriving DecidableEq, Repr

/-- Python exceptions raised by the cache core: `raise Exception(...)` in
`ensure_genre_cache`, `flask.abort(code)`, `KeyError` from a failed dict
subscript, `ValueError` from `str.rindex`, `NameError` from the unbound
`artist_name` local when the artist payload is empty, and `AttributeError`
from calling `.get` on a still-`None` `genre_links`. -/
inductive PyError where
  | serverException : PyError
  | httpAbort : Nat → PyError
  | keyError : PyError
  | valueError : PyError
  | nameError : PyError
  | attributeError : PyError
deriving DecidableEq, Repr

/-- Modelled from the spec (§2, §4.1): the `genre_view` module
(`GENRE_LOOKUP`, `UNCATEGORISED`, `GENRE_SORT_ORDER`, `GENRE_VIEWS`) is not
among the provided source files. The spec describes it as a static, pure
lookup table from upstream genre names to display genres, a total rank
ordering over display genres, and a designated fallback bucket. It is
modelled as an abstract parameter: `lookup` is `GENRE_LOOKUP` composed with
`.displayed_name`, `uncategorised` is `UNCATEGORISED`, `sortOrder` is
`GENRE_SORT_ORDER`, and `views` is `GENRE_VIEWS` (whose values only flow
into the rendered genre list, so their exact shape is irrelevant here). -/
structure GenreView where
  lookup : String → Option String
  uncategorised : String
  sortOrder : String → Int
  views : String → String

/-- The fake upstream server: a deterministic map from each request the core
issues to its response; `none` models a non-200 status. -/
structure Upstream where
  server : String
  genres : Option (List GenreJson)
  genreAlbums : String → Option (List AlbumJson)
  albums : String → Option AlbumJson
  artists : String → Option (List (String × List AlbumJson))

/-- The `Cache` object's instance variables (`src/main.py:26-36`), plus an
instrumentation log of every upstream URL requested (most recent first),
used to state fetch-count properties. `display_names` is `none` before
`ensure_genre_cache` first populates (the attribute does not exist yet). -/
structure Cache where
  display_genres : Option (List String)
  genre_links : Option (List (String × List String))
  genre_names_from_links : List (String × String)
  display_names : Option (List String)
  albums_in_genre : List (String × List Album)
  album_details : List (String × Album)
  artist_details : List (String × Artist)
  log : List String
deriving DecidableEq, Repr

/-- `Cache.__init__` -/
def cacheInit : Cache :=
  ⟨none, none, [], none, [], [], [], []⟩

/-! ## Operations translated from `src/main.py` -/

/-- `id_from_link` (`src/main.py:21-22`): the suffix after the last `/`;
`none` models the `ValueError` from `rindex` when no `/` is present. -/
def afterLastSlash : List Char → Option (List Char)
  | [] => none
  | c :: cs =>
    match afterLastSlash cs with
    | some r => some r
    | none => if c = '/' then some cs else none

def id_from_link (link : String) : Option String :=
  (afterLastSlash link.data).map String.mk

/-- The anchor computation of `add_album_from_json` (`src/main.py:124-127`):
`anchor = artist[0].upper() if artist else 'U'`, transliterated, then
replaced by `'num'` when not a plain uppercase letter (Python `in` on a
string is substring containment). -/
def anchorOf (artist : Option String) : String :=
  let a :=
    match artist with
    | none => "U"
    | some s =>
      match s.data with
      | [] => "U"
      | c :: _ => pyUpperChar c
  let a := unidecodeStr a
  if pyInStr a ascii_uppercase then a else "num"

/-- The track sort key of `add_album_from_json` (`src/main.py:133-134`):
`(disknumber if not None else 9999, tracknumber if not None else 0)`. -/
def track_sort_key (t : Track) : Int × Int :=
  (t.disknumber.getD 9999, t.tracknumber.getD 0)

/-- Python tuple comparison, one lexicographic step: strict comparison on
the first component, falling through to the rest on ties. -/
def lexLe {α β : Type} (ltA : α → α → Bool) (leB : β → β → Bool)
    (x y : α × β) : Bool :=
  if ltA x.1 y.1 then true
  else if ltA y.1 x.1 then false
  else leB x.2 y.2

def intLtB (x y : Int) : Bool := decide (x < y)

def intLeB (x y : Int) : Bool := decide (x ≤ y)

/-- Lexicographic comparison of two `Int` pairs (Python tuple comparison). -/
def intPairLe : Int × Int → Int × Int → Bool :=
  lexLe intLtB intLeB

def trackLe (t u : Track) : Bool :=
  intPairLe (track_sort_key t) (track_sort_key u)

/-- The list comprehension of `src/main.py:128-132`; `none` models a
`ValueError` from `id_from_link` on a malformed track link. -/
def tracksFromJson : List TrackJson → Option (List Track)
  | [] => some []
  | tj :: rest =>
    match id_from_link tj.link, tracksFromJson rest with
    | some i, some ts => some (⟨i, tj.title, tj.disknumber, tj.tracknumber⟩ :: ts)
    | _, _ => none

/-- `Cache.add_album_from_json` (`src/main.py:119-145`). Normalizes one raw
album payload, stores it in `album_details` keyed by its id, and returns it. -/
def add_album_from_json (c : Cache) (j : AlbumJson) :
    Except PyError (Album × Cache) :=
  match id_from_link j.link with
  | none => .error .valueError
  | some album_id =>
    let first_genre : Option String :=
      match j.genres with
      | [] => none
      | g :: _ => if g = "" then none else some g
    let genreName : Except PyError (Option String) :=
      match first_genre with
      | none => .ok none
      | some g =>
        match lookupAssoc g c.genre_names_from_links with
        | none => .error .keyError
        | some dn => .ok (some dn)
    match genreName with
    | .error e => .error e
    | .ok genre_name =>
      let anchor := anchorOf j.artist
      match tracksFromJson j.tracks with
      | none => .error .valueError
      | some tracks =>
        let tracks := sortByLe trackLe tracks
        let album : Album :=
          ⟨album_id, j.artist, j.title, j.releasedate, j.artwork_link,
           genre_name, j.numberdisks, tracks, anchor⟩
        .ok (album, {c with album_details := upsert album_id album c.album_details})

/-- The genre classification of `src/main.py:50-55`: `GENRE_LOOKUP.get` with
the `UNCATEGORISED` fallback. -/
def classifyGenre (gv : GenreView) (name : String) : String :=
  match gv.lookup name with
  | some dn => dn
  | none => gv.uncategorised

/-- The loop body of `ensure_genre_cache` (`src/main.py:47-59`): builds
`genre_links` (a `defaultdict(list)`), extends `genre_names_from_links`,
and collects the set of display names in first-seen order. -/
def buildGenreIndex (gv : GenreView) :
    List GenreJson → List (String × List String) → List (String × String) →
    List String →
    List (String × List String) × List (String × String) × List String
  | [], gl, nfl, dns => (gl, nfl, dns)
  | gj :: rest, gl, nfl, dns =>
    let dg := classifyGenre gv gj.name
    buildGenreIndex gv rest (appendAt dg gj.link gl) (upsert gj.link dg nfl)
      (addToSet dg dns)

/-- `Cache.ensure_genre_cache` (`src/main.py:38-61`). -/
def ensure_genre_cache (gv : GenreView) (up : Upstream) (c : Cache) :
    Except PyError Cache :=
  match c.display_genres with
  | some _ => .ok c
  | none =>
    let c1 : Cache := {c with log := (up.server ++ "/genres") :: c.log}
    match up.genres with
    | none => .error .serverException
    | some gjs =>
      let built := buildGenreIndex gv gjs [] c.genre_names_from_links []
      let dns := sortByLe (fun a b => intLeB (gv.sortOrder a) (gv.sortOrder b))
        built.2.2
      .ok {c1 with
            genre_links := some built.1,
            genre_names_from_links := built.2.1,
            display_names := some dns,
            display_genres := some (dns.map gv.views)}

/-- `get_album_sort_order` (`src/main.py:86-94`), the sort key for a
genre's album listing. -/
def get_album_sort_order (album : Album) : String × Int × String :=
  let artist :=
    match album.artist with
    | none => "Unknown Artist"
    | some s => if s.isEmpty then "Unknown Artist" else s
  let artist := String.mk (artist.data.filter (fun ch => ch ≠ '"'))
  let artist := strLower (unidecodeStr artist)
  let title :=
    match album.title with
    | none => "ZZZZZZZZZZZ"
    | some s => if s.isEmpty then "ZZZZZZZZZZZ" else s
  let title := strLower (unidecodeStr title)
  (artist, album.year.getD 0, title)

/-- Lexicographic comparison of two album sort keys (Python tuple
comparison on `(str, int, str)`). -/
def albumKeyLe : String × Int × String → String × Int × String → Bool :=
  lexLe strLt (lexLe intLtB strLe)

def albumLe (a b : Album) : Bool :=
  albumKeyLe (get_album_sort_order a) (get_album_sort_order b)

/-- The inner loop of `ensure_genre_contents_cache` (`src/main.py:82-84`):
normalize each album of one upstream payload and key it by id into the
deduplication dict. -/
def addAlbums : List AlbumJson → List (String × Album) → Cache →
    Except PyError (List (String × Album) × Cache)
  | [], dict, c => .ok (dict, c)
  | j :: rest, dict, c =>
    match add_album_from_json c j with
    | .error e => .error e
    | .ok (album, c') => addAlbums rest (upsert album.id album dict) c'

def genreContentsUrl (up : Upstream) (link : String) : String :=
  up.server ++ link ++ "?albums=all"

/-- The outer loop of `ensure_genre_contents_cache` (`src/main.py:77-84`):
fetch each upstream genre link and accumulate albums, deduplicated by id. -/
def fetchGenreAlbums (up : Upstream) :
    List String → List (String × Album) → Cache →
    Except PyError (List (String × Album) × Cache)
  | [], dict, c => .ok (dict, c)
  | link :: rest, dict, c =>
    let c1 : Cache := {c with log := genreContentsUrl up link :: c.log}
    match up.genreAlbums link with
    | none => .error (.httpAbort 500)
    | some ajs =>
      match addAlbums ajs dict c1 with
      | .error e => .error e
      | .ok (dict', c') => fetchGenreAlbums up rest dict' c'

/-- `Cache.ensure_genre_contents_cache` (`src/main.py:63-98`). -/
def ensure_genre_contents_cache (gv : GenreView) (up : Upstream) (c : Cache)
    (genre_name : String) : Except PyError (Option (List Album) × Cache) :=
  match ensure_genre_cache gv up c with
  | .error e => .error e
  | .ok c =>
    match lookupAssoc genre_name c.albums_in_genre with
    | some cached => .ok (some cached, c)
    | none =>
      match c.genre_links with
      | none => .error .attributeError
      | some gl =>
        match lookupAssoc genre_name gl with
        | none => .ok (none, c)
        | some server_links =>
          match fetchGenreAlbums up server_links [] c with
          | .error e => .error e
          | .ok (dict, c') =>
            let albums := sortByLe albumLe (dict.map Prod.snd)
            .ok (some albums,
              {c' with albums_in_genre := upsert genre_name albums c'.albums_in_genre})

def albumUrl (up : Upstream) (album_id : String) : String :=
  up.server ++ "/albums/" ++ album_id ++ "?tracks=all"

/-- `Cache.ensure_album_cache` (`src/main.py:100-107`). The final
`self.album_details[album_id]` raises `KeyError` if the fetched payload's
id differs from the requested one. -/
def ensure_album_cache (gv : GenreView) (up : Upstream) (c : Cache)
    (album_id : String) : Except PyError (Album × Cache) :=
  match ensure_genre_cache gv up c with
  | .error e => .error e
  | .ok c =>
    match lookupAssoc album_id c.album_details with
    | some a => .ok (a, c)
    | none =>
      let c1 : Cache := {c with log := albumUrl up album_id :: c.log}
      match up.albums album_id with
      | none => .error (.httpAbort 500)
      | some j =>
        match add_album_from_json c1 j with
        | .error e => .error e
        | .ok (_, c2) =>
          match lookupAssoc album_id c2.album_details with
          | some a => .ok (a, c2)
          | none => .error .keyError

/-- The artist-album sort key (`src/main.py:155`):
`album.year if album.year else 9999` (Python truthiness: `None` and `0`
both map to the sentinel). -/
def artistAlbumKey (album : Album) : Int :=
  match album.year with
  | none => 9999
  | some y => if y = 0 then 9999 else y

def artistAlbumLe (a b : Album) : Bool :=
  intLeB (artistAlbumKey a) (artistAlbumKey b)

/-- The nested loops of `add_artist_from_json` (`src/main.py:152-154`):
normalize every album of every group, in order, into one list. -/
def addAlbumsToList : List AlbumJson → List Album → Cache →
    Except PyError (List Album × Cache)
  | [], acc, c => .ok (acc, c)
  | j :: rest, acc, c =>
    match add_album_from_json c j with
    | .error e => .error e
    | .ok (album, c') => addAlbumsToList rest (acc ++ [album]) c'

def collectArtistAlbums : List (String × List AlbumJson) → List Album → Cache →
    Except PyError (List Album × Cache)
  | [], acc, c => .ok (acc, c)
  | (_, ajs) :: rest, acc, c =>
    match addAlbumsToList ajs acc c with
    | .error e => .error e
    | .ok (acc', c') => collectArtistAlbums rest acc' c'

/-- The final value of the `artist_name` loop variable, `none` when the
payload has no groups (in which case Python raises `NameError` at
`Artist(artist_name, albums)`). -/
def lastGroupKey : List (String × List AlbumJson) → Option String
  | [] => none
  | [(k, _)] => some k
  | _ :: rest => lastGroupKey rest

/-- `Cache.add_artist_from_json` (`src/main.py:147-157`). -/
def add_artist_from_json (c : Cache) (aj : List (String × List AlbumJson)) :
    Except PyError Cache :=
  match collectArtistAlbums aj [] c with
  | .error e => .error e
  | .ok (albums, c') =>
    match lastGroupKey aj with
    | none => .error .nameError
    | some artist_name =>
      let art : Artist := ⟨artist_name, sortByLe artistAlbumLe albums⟩
      .ok {c' with
            artist_details := upsert (strLower artist_name) art c'.artist_details}

def artistUrl (up : Upstream) (artist : String) : String :=
  up.server ++ "/artists/" ++ artist ++ "?tracks=all"

/-- `Cache.ensure_artist_cache` (`src/main.py:109-117`). The final
`self.artist_details[artist_lookup]` raises `KeyError` when the populated
entry was stored under a different lower-cased group key. -/
def ensure_artist_cache (gv : GenreView) (up : Upstream) (c : Cache)
    (artist : String) : Except PyError (Artist × Cache) :=
  match ensure_genre_cache gv up c with
  | .error e => .error e
  | .ok c =>
    let artist_lookup := strLower artist
    match lookupAssoc artist_lookup c.artist_details with
    | some a => .ok (a, c)
    | none =>
      let c1 : Cache := {c with log := artistUrl up artist :: c.log}
      match up.artists artist with
      | none => .error (.httpAbort 404)
      | some aj =>
        match add_artist_from_json c1 aj with
        | .error e => .error e
        | .ok c2 =>
          match lookupAssoc artist_lookup c2.artist_details with
          | some a => .ok (a, c2)
          | none => .error .keyError

/-! ## Order-theoretic facts about the comparators -/

theorem charListLt_irrefl : ∀ a : List Char, charListLt a a = false := by
  intro a
  induction a with
  | nil => rfl
  | cons x xs ih => simp [charListLt, lt_irrefl, ih]

theorem charListLt_trans : ∀ a b c : List Char,
    charListLt a b = true → charListLt b c = true → charListLt a c = true := by
  intro a
  induction a with
  | nil =>
    intro b c hab hbc
    cases b with
    | nil => simp [charListLt] at hab
    | cons y ys =>
      cases c with
      | nil => simp [charListLt] at hbc
      | cons z zs => rfl
  | cons x xs ih =>
    intro b c hab hbc
    cases b with
    | nil => simp [charListLt] at hab
    | cons y ys =>
      cases c with
      | nil => simp [charListLt] at hbc
      | cons z zs =>
        simp only [charListLt] at hab hbc ⊢
        rcases lt_trichotomy x y with hxy | hxy | hxy
        · rcases lt_trichotomy y z with hyz | hyz | hyz
          · simp [lt_trans hxy hyz]
          · subst hyz; simp [hxy]
          · simp [lt_asymm hyz, hyz] at hbc
        · subst hxy
          rcases lt_trichotomy x z with hxz | hxz | hxz
          · simp [hxz]
          · subst hxz
            simp only [lt_irrefl, if_false] at hab hbc ⊢
            exact ih ys zs hab hbc
          · simp [lt_asymm hxz, hxz] at hbc
        · simp [lt_asymm hxy, hxy] at hab

theorem charListLt_conn : ∀ a b : List Char,
    charListLt a b = false → charListLt b a = false → a = b := by
  intro a
  induction a with
  | nil =>
    intro b hab _
    cases b with
    | nil => rfl
    | cons y ys => simp [charListLt] at hab
  | cons x xs ih =>
    intro b hab hba
    cases b with
    | nil => simp [charListLt] at hba
    | cons y ys =>
      simp only [charListLt] at hab hba
      rcases lt_trichotomy x y with hxy | hxy | hxy
      · simp [hxy] at hab
      · subst hxy
        simp only [lt_irrefl, if_false] at hab hba
        rw [ih ys hab hba]
      · simp [hxy] at hba

theorem strLt_irrefl (a : String) : strLt a a = false :=
  charListLt_irrefl a.data

theorem strLt_trans (a b c : String) :
    strLt a b = true → strLt b c = true → strLt a c = true :=
  charListLt_trans a.data b.data c.data

theorem strLt_conn (a b : String) :
    strLt a b = false → strLt b a = false → a = b := by
  intro h1 h2
  have := charListLt_conn a.data b.data h1 h2
  cases a with
  | mk d1 =>
    cases b with
    | mk d2 => simp only [String.data] at this; rw [this]

theorem lexLe_total {α β : Type} (ltA : α → α → Bool) (leB : β → β → Bool)
    (htotB : ∀ x y, leB x y = true ∨ leB y x = true) (x y : α × β) :
    lexLe ltA leB x y = true ∨ lexLe ltA leB y x = true := by
  unfold lexLe
  by_cases h1 : ltA x.1 y.1
  · left; simp [h1]
  · by_cases h2 : ltA y.1 x.1
    · right; simp [h2]
    · rcases htotB x.2 y.2 with h | h
      · left; simp [h1, h2, h]
      · right; simp [h1, h2, h]

theorem lexLe_trans {α β : Type} (ltA : α → α → Bool) (leB : β → β → Bool)
    (hirr : ∀ a, ltA a a = false)
    (htr : ∀ a b c, ltA a b = true → ltA b c = true → ltA a c = true)
    (hconn : ∀ a b, ltA a b = false → ltA b a = false → a = b)
    (htrB : ∀ x y z, leB x y = true → leB y z = true → leB x z = true)
    (x y z : α × β) :
    lexLe ltA leB x y = true → lexLe ltA leB y z = true →
    lexLe ltA leB x z = true := by
  intro hxy hyz
  unfold lexLe at hxy hyz ⊢
  have hasym : ∀ a b, ltA a b = true → ltA b a = false := by
    intro a b hab
    by_cases h : ltA b a
    · exact absurd (htr a b a hab h) (by simp [hirr a])
    · simpa using h
  by_cases h1 : ltA x.1 y.1
  · by_cases h2 : ltA y.1 z.1
    · simp [htr _ _ _ h1 h2]
    · by_cases h3 : ltA z.1 y.1
      · simp [hasym _ _ h3, h3] at hyz
      · have : y.1 = z.1 := hconn _ _ (by simpa using h2) (by simpa using h3)
        rw [← this]
        simp [h1]
  · by_cases h1' : ltA y.1 x.1
    · simp [h1, h1'] at hxy
    · have hxy1 : x.1 = y.1 := hconn _ _ (by simpa using h1) (by simpa using h1')
      rw [hxy1]
      by_cases h2 : ltA y.1 z.1
      · simp [h2]
      · by_cases h3 : ltA z.1 y.1
        · simp [hasym _ _ h3, h3] at hyz
        · simp only [h1, h1', Bool.false_eq_true, if_false] at hxy
          simp only [h2, h3, Bool.false_eq_true, if_false] at hyz ⊢
          exact htrB _ _ _ hxy hyz

theorem intPairLe_total (x y : Int × Int) :
    intPairLe x y = true ∨ intPairLe y x = true := by
  apply lexLe_total
  intro a b
  unfold intLeB
  simp only [decide_eq_true_eq]
  omega

theorem intPairLe_trans (x y z : Int × Int) :
    intPairLe x y = true → intPairLe y z = true → intPairLe x z = true := by
  apply lexLe_trans
  · intro a; unfold intLtB; simp
  · intro a b c; unfold intLtB; simp only [decide_eq_true_eq]; omega
  · intro a b; unfold intLtB; simp only [decide_eq_false_iff_not]; omega
  · intro a b c; unfold intLeB; simp only [decide_eq_true_eq]; omega

theorem trackLe_total (t u : Track) : trackLe t u = true ∨ trackLe u t = true :=
  intPairLe_total _ _

theorem trackLe_trans (t u v : Track) :
    trackLe t u = true → trackLe u v = true → trackLe t v = true :=
  intPairLe_trans _ _ _

theorem albumKeyLe_total (x y : String × Int × String) :
    albumKeyLe x y = true ∨ albumKeyLe y x = true := by
  apply lexLe_total
  intro a b
  apply lexLe_total
  intro s t
  exact strLe_total s t

theorem albumKeyLe_trans (x y z : String × Int × String) :
    albumKeyLe x y = true → albumKeyLe y z = true → albumKeyLe x z = true := by
  apply lexLe_trans
  · exact strLt_irrefl
  · exact strLt_trans
  · exact strLt_conn
  · apply lexLe_trans
    · intro a; unfold intLtB; simp
    · intro a b c; unfold intLtB; simp only [decide_eq_true_eq]; omega
    · intro a b; unfold intLtB; simp only [decide_eq_false_iff_not]; omega
    · exact strLe_trans

theorem albumLe_total (a b : Album) : albumLe a b = true ∨ albumLe b a = true :=
  albumKeyLe_total _ _

theorem albumLe_trans (a b c : Album) :
    albumLe a b = true → albumLe b c = true → albumLe a c = true :=
  albumKeyLe_trans _ _ _

theorem artistAlbumLe_total (a b : Album) :
    artistAlbumLe a b = true ∨ artistAlbumLe b a = true := by
  unfold artistAlbumLe intLeB
  rcases le_total (artistAlbumKey a) (artistAlbumKey b) with h | h
  · left; simpa using h
  · right; simpa using h

theorem artistAlbumLe_trans (a b c : Album) :
    artistAlbumLe a b = true → artistAlbumLe b c = true →
    artistAlbumLe a c = true := by
  unfold artistAlbumLe intLeB
  simp only [decide_eq_true_eq]
  intro h1 h2
  exact le_trans h1 h2

/-! ## Additional association-list lemmas -/

theorem keys_subset_upsert {β : Type} (k : String) (v : β) :
    ∀ l : List (String × β),
    (l.map Prod.fst : List String) ⊆ (upsert k v l).map Prod.fst := by
  intro l
  induction l with
  | nil => simp
  | cons hd rest ih =>
    obtain ⟨k0, v0⟩ := hd
    by_cases h : k0 = k
    · rw [show upsert k v ((k0, v0) :: rest) = (k, v) :: rest by simp [upsert, h]]
      simp only [List.map_cons]
      intro x hx
      rcases List.mem_cons.mp hx with rfl | hx
      · simp [h]
      · simp [hx]
    · rw [show upsert k v ((k0, v0) :: rest) = (k0, v0) :: upsert k v rest by
        simp [upsert, h]]
      simp only [List.map_cons]
      intro x hx
      rcases List.mem_cons.mp hx with rfl | hx
      · simp
      · exact List.mem_cons_of_mem _ (ih hx)

theorem lookupAssoc_some_mem {β : Type} (k : String) (v : β) :
    ∀ l : List (String × β), lookupAssoc k l = some v → (k, v) ∈ l := by
  intro l
  induction l with
  | nil => intro h; simp [lookupAssoc] at h
  | cons hd rest ih =>
    obtain ⟨k0, v0⟩ := hd
    intro h
    by_cases hk : k0 = k
    · simp only [lookupAssoc, hk, if_pos, Option.some.injEq] at h
      subst hk
      subst h
      exact List.mem_cons_self _ _
    · simp only [lookupAssoc, hk, if_neg, Bool.false_eq_true] at h
      exact List.mem_cons_of_mem _ (ih h)

theorem mem_keys_upsert_self {β : Type} (k : String) (v : β)
    (l : List (String × β)) : k ∈ (upsert k v l).map Prod.fst := by
  have := lookupAssoc_some_mem k v (upsert k v l) (lookupAssoc_upsert_self k v l)
  exact List.mem_map_of_mem Prod.fst this

/-! ## Characterization of `ensure_genre_cache` -/

theorem ensure_genre_cache_of_some (gv : GenreView) (up : Upstream) (c : Cache)
    (d : List String) (hd : c.display_genres = some d) :
    ensure_genre_cache gv up c = .ok c := by
  unfold ensure_genre_cache
  rw [hd]

/-- Everything the other proofs need to know about a successful
`ensure_genre_cache`: the populated flag is set, the non-genre tables are
untouched, a population logs exactly the `/genres` request, and a call on an
already-populated cache is the identity. -/
theorem ensure_genre_cache_ok (gv : GenreView) (up : Upstream) (c c' : Cache)
    (h : ensure_genre_cache gv up c = .ok c') :
    (∃ d, c'.display_genres = some d) ∧
    c'.albums_in_genre = c.albums_in_genre ∧
    c'.album_details = c.album_details ∧
    c'.artist_details = c.artist_details ∧
    (c.display_genres = none → c'.log = (up.server ++ "/genres") :: c.log) ∧
    (∀ d, c.display_genres = some d → c' = c) := by
  unfold ensure_genre_cache at h
  cases hd : c.display_genres with
  | some d =>
    rw [hd] at h
    simp only [Except.ok.injEq] at h
    subst h
    exact ⟨⟨d, hd⟩, rfl, rfl, rfl, by simp [hd], fun _ _ => rfl⟩
  | none =>
    rw [hd] at h
    cases hg : up.genres with
    | none => rw [hg] at h; cases h
    | some gjs =>
      rw [hg] at h
      simp only [Except.ok.injEq] at h
      subst h
      refine ⟨⟨_, rfl⟩, rfl, rfl, rfl, fun _ => rfl, ?_⟩
      intro d hdd
      cases hdd

theorem ensure_genre_cache_idem (gv : GenreView) (up : Upstream) (c c' : Cache)
    (h : ensure_genre_cache gv up c = .ok c') :
    ensure_genre_cache gv up c' = .ok c' := by
  obtain ⟨⟨d, hd⟩, -, -, -, -, -⟩ := ensure_genre_cache_ok gv up c c' h
  exact ensure_genre_cache_of_some gv up c' d hd

/-! ## Characterization of `add_album_from_json` -/

theorem add_album_ok (c : Cache) (j : AlbumJson) (alb : Album) (c' : Cache)
    (h : add_album_from_json c j = .ok (alb, c')) :
    id_from_link j.link = some alb.id ∧
    c' = {c with album_details := upsert alb.id alb c.album_details} := by
  unfold add_album_from_json at h
  cases hid : id_from_link j.link with
  | none => rw [hid] at h; cases h
  | some album_id =>
    rw [hid] at h
    simp only at h
    split at h
    · cases h
    · split at h
      · cases h
      · simp only [Except.ok.injEq, Prod.mk.injEq] at h
        obtain ⟨halb, hc⟩ := h
        subst halb
        subst hc
        exact ⟨rfl, rfl⟩

/-! ## State preservation across the folds -/

/-- Equality of every `Cache` field except `album_details` and `log`:
what the album-normalization folds leave untouched. -/
def coreEq (c c' : Cache) : Prop :=
  c'.display_genres = c.display_genres ∧
  c'.genre_links = c.genre_links ∧
  c'.genre_names_from_links = c.genre_names_from_links ∧
  c'.display_names = c.display_names ∧
  c'.albums_in_genre = c.albums_in_genre ∧
  c'.artist_details = c.artist_details

theorem coreEq_refl (c : Cache) : coreEq c c :=
  ⟨rfl, rfl, rfl, rfl, rfl, rfl⟩

theorem coreEq_trans {a b c : Cache} (h1 : coreEq a b) (h2 : coreEq b c) :
    coreEq a c := by
  obtain ⟨x1, x2, x3, x4, x5, x6⟩ := h1
  obtain ⟨y1, y2, y3, y4, y5, y6⟩ := h2
  exact ⟨y1.trans x1, y2.trans x2, y3.trans x3, y4.trans x4, y5.trans x5,
         y6.trans x6⟩

theorem add_album_core (c : Cache) (j : AlbumJson) (alb : Album) (c' : Cache)
    (h : add_album_from_json c j = .ok (alb, c')) :
    coreEq c c' ∧ c'.log = c.log ∧
    c'.album_details = upsert alb.id alb c.album_details := by
  obtain ⟨-, hc⟩ := add_album_ok c j alb c' h
  subst hc
  exact ⟨⟨rfl, rfl, rfl, rfl, rfl, rfl⟩, rfl, rfl⟩

theorem addAlbums_core : ∀ (ajs : List AlbumJson) (dict : List (String × Album))
    (c : Cache) (dict' : List (String × Album)) (c' : Cache),
    addAlbums ajs dict c = .ok (dict', c') → coreEq c c' ∧ c'.log = c.log := by
  intro ajs
  induction ajs with
  | nil =>
    intro dict c dict' c' h
    simp only [addAlbums, Except.ok.injEq, Prod.mk.injEq] at h
    rw [← h.2]
    exact ⟨coreEq_refl c, rfl⟩
  | cons j rest ih =>
    intro dict c dict' c' h
    simp only [addAlbums] at h
    split at h
    · cases h
    · rename_i p alb c₂ ha
      obtain ⟨hcore, hlog, -⟩ := add_album_core c j alb c₂ ha
      obtain ⟨hcore', hlog'⟩ := ih _ _ _ _ h
      exact ⟨coreEq_trans hcore hcore', hlog'.trans hlog⟩

theorem fetchGenreAlbums_core (up : Upstream) :
    ∀ (links : List String) (dict : List (String × Album)) (c : Cache)
    (dict' : List (String × Album)) (c' : Cache),
    fetchGenreAlbums up links dict c = .ok (dict', c') → coreEq c c' := by
  intro links
  induction links with
  | nil =>
    intro dict c dict' c' h
    simp only [fetchGenreAlbums, Except.ok.injEq, Prod.mk.injEq] at h
    rw [← h.2]
    exact coreEq_refl c
  | cons link rest ih =>
    intro dict c dict' c' h
    simp only [fetchGenreAlbums] at h
    split at h
    · cases h
    · rename_i ajs hg
      split at h
      · cases h
      · rename_i p dict₂ c₂ ha
        obtain ⟨hcore, -⟩ := addAlbums_core _ _ _ _ _ ha
        have hstep : coreEq c {c with log := genreContentsUrl up link :: c.log} :=
          ⟨rfl, rfl, rfl, rfl, rfl, rfl⟩
        exact coreEq_trans (coreEq_trans hstep hcore) (ih _ _ _ _ h)

theorem fetchGenreAlbums_log (up : Upstream) :
    ∀ (links : List String) (dict : List (String × Album)) (c : Cache)
    (dict' : List (String × Album)) (c' : Cache),
    fetchGenreAlbums up links dict c = .ok (dict', c') →
    c'.log = (links.map (genreContentsUrl up)).reverse ++ c.log := by
  intro links
  induction links with
  | nil =>
    intro dict c dict' c' h
    simp only [fetchGenreAlbums, Except.ok.injEq, Prod.mk.injEq] at h
    rw [← h.2]
    simp
  | cons link rest ih =>
    intro dict c dict' c' h
    simp only [fetchGenreAlbums] at h
    split at h
    · cases h
    · rename_i ajs hg
      split at h
      · cases h
      · rename_i p dict₂ c₂ ha
        obtain ⟨-, hlog⟩ := addAlbums_core _ _ _ _ _ ha
        have := ih _ _ _ _ h
        rw [this, hlog]
        simp [List.append_assoc]

/-! ## The deduplication-dict invariant

During `ensure_genre_contents_cache` population, the local `albums` dict is
keyed by album id; every entry's value carries its key as its `id` field and
is simultaneously stored in `album_details` under that key. -/

def DictInv (dict : List (String × Album)) (c : Cache) : Prop :=
  ((dict.map Prod.fst : List String)).Nodup ∧
  ∀ kv ∈ dict, kv.2.id = kv.1 ∧ lookupAssoc kv.1 c.album_details = some kv.2

theorem DictInv_nil (c : Cache) : DictInv [] c :=
  ⟨List.nodup_nil, by intro kv h; cases h⟩

theorem DictInv_add (dict : List (String × Album)) (c : Cache) (j : AlbumJson)
    (alb : Album) (c₂ : Cache) (hinv : DictInv dict c)
    (h : add_album_from_json c j = .ok (alb, c₂)) :
    DictInv (upsert alb.id alb dict) c₂ := by
  obtain ⟨-, hc⟩ := add_album_ok c j alb c₂ h
  subst hc
  refine ⟨keys_upsert_nodup _ _ _ hinv.1, ?_⟩
  intro kv hkv
  rcases mem_upsert _ _ _ _ hinv.1 hkv with rfl | ⟨hmem, hne⟩
  · exact ⟨rfl, lookupAssoc_upsert_self _ _ _⟩
  · obtain ⟨hid, hlook⟩ := hinv.2 kv hmem
    exact ⟨hid, by
      show lookupAssoc kv.1 (upsert alb.id alb c.album_details) = some kv.2
      rw [lookupAssoc_upsert_ne _ _ _ hne]
      exact hlook⟩

theorem DictInv_log (dict : List (String × Album)) (c : Cache) (lg : List String)
    (hinv : DictInv dict c) : DictInv dict {c with log := lg} :=
  ⟨hinv.1, fun kv hkv => hinv.2 kv hkv⟩

theorem addAlbums_inv : ∀ (ajs : List AlbumJson) (dict : List (String × Album))
    (c : Cache) (dict' : List (String × Album)) (c' : Cache),
    addAlbums ajs dict c = .ok (dict', c') → DictInv dict c → DictInv dict' c' := by
  intro ajs
  induction ajs with
  | nil =>
    intro dict c dict' c' h hinv
    simp only [addAlbums, Except.ok.injEq, Prod.mk.injEq] at h
    rw [← h.1, ← h.2]
    exact hinv
  | cons j rest ih =>
    intro dict c dict' c' h hinv
    simp only [addAlbums] at h
    split at h
    · cases h
    · rename_i p alb c₂ ha
      exact ih _ _ _ _ h (DictInv_add dict c j alb c₂ hinv ha)

theorem addAlbums_keys_mono : ∀ (ajs : List AlbumJson)
    (dict : List (String × Album)) (c : Cache)
    (dict' : List (String × Album)) (c' : Cache),
    addAlbums ajs dict c = .ok (dict', c') →
    (dict.map Prod.fst : List String) ⊆ dict'.map Prod.fst := by
  intro ajs
  induction ajs with
  | nil =>
    intro dict c dict' c' h
    simp only [addAlbums, Except.ok.injEq, Prod.mk.injEq] at h
    rw [← h.1]
    exact fun x hx => hx
  | cons j rest ih =>
    intro dict c dict' c' h
    simp only [addAlbums] at h
    split at h
    · cases h
    · rename_i p alb c₂ ha
      exact fun x hx => ih _ _ _ _ h (keys_subset_upsert _ _ _ hx)

theorem addAlbums_coverage : ∀ (ajs : List AlbumJson)
    (dict : List (String × Album)) (c : Cache)
    (dict' : List (String × Album)) (c' : Cache),
    addAlbums ajs dict c = .ok (dict', c') →
    ∀ j ∈ ajs, ∃ key, id_from_link j.link = some key ∧
      key ∈ (dict'.map Prod.fst : List String) := by
  intro ajs
  induction ajs with
  | nil =>
    intro dict c dict' c' h j hj
    cases hj
  | cons j0 rest ih =>
    intro dict c dict' c' h j hj
    simp only [addAlbums] at h
    split at h
    · cases h
    · rename_i p alb c₂ ha
      rcases List.mem_cons.mp hj with rfl | hj
      · obtain ⟨hid, -⟩ := add_album_ok _ _ _ _ ha
        refine ⟨alb.id, hid, ?_⟩
        exact addAlbums_keys_mono _ _ _ _ _ h (mem_keys_upsert_self _ _ _)
      · exact ih _ _ _ _ h j hj

theorem fetchGenreAlbums_inv (up : Upstream) : ∀ (links : List String)
    (dict : List (String × Album)) (c : Cache)
    (dict' : List (String × Album)) (c' : Cache),
    fetchGenreAlbums up links dict c = .ok (dict', c') →
    DictInv dict c → DictInv dict' c' := by
  intro links
  induction links with
  | nil =>
    intro dict c dict' c' h hinv
    simp only [fetchGenreAlbums, Except.ok.injEq, Prod.mk.injEq] at h
    rw [← h.1, ← h.2]
    exact hinv
  | cons link rest ih =>
    intro dict c dict' c' h hinv
    simp only [fetchGenreAlbums] at h
    split at h
    · cases h
    · rename_i ajs hg
      split at h
      · cases h
      · rename_i p dict₂ c₂ ha
        exact ih _ _ _ _ h (addAlbums_inv _ _ _ _ _ ha (DictInv_log _ _ _ hinv))

theorem fetchGenreAlbums_keys_mono (up : Upstream) : ∀ (links : List String)
    (dict : List (String × Album)) (c : Cache)
    (dict' : List (String × Album)) (c' : Cache),
    fetchGenreAlbums up links dict c = .ok (dict', c') →
    (dict.map Prod.fst : List String) ⊆ dict'.map Prod.fst := by
  intro links
  induction links with
  | nil =>
    intro dict c dict' c' h
    simp only [fetchGenreAlbums, Except.ok.injEq, Prod.mk.injEq] at h
    rw [← h.1]
    exact fun x hx => hx
  | cons link rest ih =>
    intro dict c dict' c' h
    simp only [fetchGenreAlbums] at h
    split at h
    · cases h
    · rename_i ajs hg
      split at h
      · cases h
      · rename_i p dict₂ c₂ ha
        exact fun x hx =>
          ih _ _ _ _ h (addAlbums_keys_mono _ _ _ _ _ ha hx)

theorem fetchGenreAlbums_coverage (up : Upstream) : ∀ (links : List String)
    (dict : List (String × Album)) (c : Cache)
    (dict' : List (String × Album)) (c' : Cache),
    fetchGenreAlbums up links dict c = .ok (dict', c') →
    ∀ link ∈ links, ∀ ajs, up.genreAlbums link = some ajs →
    ∀ j ∈ ajs, ∃ key, id_from_link j.link = some key ∧
      key ∈ (dict'.map Prod.fst : List String) := by
  intro links
  induction links with
  | nil =>
    intro dict c dict' c' h link hlink
    cases hlink
  | cons link0 rest ih =>
    intro dict c dict' c' h link hlink ajs hup j hj
    simp only [fetchGenreAlbums] at h
    split at h
    · cases h
    · rename_i ajs0 hg
      split at h
      · cases h
      · rename_i p dict₂ c₂ ha
        rcases List.mem_cons.mp hlink with rfl | hlink
        · rw [hup] at hg
          cases hg
          obtain ⟨key, hkey, hmem⟩ := addAlbums_coverage _ _ _ _ _ ha j hj
          exact ⟨key, hkey, fetchGenreAlbums_keys_mono up _ _ _ _ _ h hmem⟩
        · exact ih _ _ _ _ h link hlink ajs hup j hj

/-! ## Path characterizations of the ensure operations -/

/-- Every successful `ensure_genre_contents_cache` call took one of three
paths: cache hit, unknown genre, or population. -/
theorem ensure_genre_contents_ok (gv : GenreView) (up : Upstream) (c : Cache)
    (g : String) (r : Option (List Album)) (c'' : Cache)
    (h : ensure_genre_contents_cache gv up c g = .ok (r, c'')) :
    ∃ c₀, ensure_genre_cache gv up c = .ok c₀ ∧
      ((∃ cached, lookupAssoc g c₀.albums_in_genre = some cached ∧
          r = some cached ∧ c'' = c₀) ∨
       (lookupAssoc g c₀.albums_in_genre = none ∧
        ∃ gl, c₀.genre_links = some gl ∧
          ((lookupAssoc g gl = none ∧ r = none ∧ c'' = c₀) ∨
           (∃ links dict c' albums, lookupAssoc g gl = some links ∧
              fetchGenreAlbums up links [] c₀ = .ok (dict, c') ∧
              albums = sortByLe albumLe (dict.map Prod.snd) ∧
              r = some albums ∧
              c'' = {c' with albums_in_genre := upsert g albums c'.albums_in_genre})))) := by
  simp only [ensure_genre_contents_cache] at h
  split at h
  · cases h
  · rename_i c₀ hens
    refine ⟨c₀, hens, ?_⟩
    split at h
    · rename_i cached hcached
      simp only [Except.ok.injEq, Prod.mk.injEq] at h
      exact Or.inl ⟨cached, hcached, h.1.symm, h.2.symm⟩
    · rename_i hmiss
      split at h
      · cases h
      · rename_i gl hgl
        refine Or.inr ⟨hmiss, gl, hgl, ?_⟩
        split at h
        · rename_i hnone
          simp only [Except.ok.injEq, Prod.mk.injEq] at h
          exact Or.inl ⟨hnone, h.1.symm, h.2.symm⟩
        · rename_i links hlinks
          split at h
          · cases h
          · rename_i p dict c' hfetch
            simp only [Except.ok.injEq, Prod.mk.injEq] at h
            exact Or.inr ⟨links, dict, c', _, hlinks, hfetch, rfl,
              h.1.symm, h.2.symm⟩

/-- Every successful `ensure_album_cache` call either hit the cache or
populated it; in both cases the returned album is the `album_details` entry
under the requested id in the final state. -/
theorem ensure_album_cache_ok (gv : GenreView) (up : Upstream) (c : Cache)
    (album_id : String) (a : Album) (c' : Cache)
    (h : ensure_album_cache gv up c album_id = .ok (a, c')) :
    ∃ c₀, ensure_genre_cache gv up c = .ok c₀ ∧
      lookupAssoc album_id c'.album_details = some a ∧
      ((lookupAssoc album_id c₀.album_details = some a ∧ c' = c₀) ∨
       (lookupAssoc album_id c₀.album_details = none ∧
        ∃ j alb, up.albums album_id = some j ∧
          add_album_from_json {c₀ with log := albumUrl up album_id :: c₀.log} j = .ok (alb, c'))) := by
  simp only [ensure_album_cache] at h
  split at h
  · cases h
  · rename_i c₀ hens
    refine ⟨c₀, hens, ?_⟩
    split at h
    · rename_i a0 hhit
      simp only [Except.ok.injEq, Prod.mk.injEq] at h
      rw [← h.1, ← h.2]
      exact ⟨hhit, Or.inl ⟨hhit, rfl⟩⟩
    · rename_i hmiss
      split at h
      · cases h
      · rename_i j hj
        split at h
        · cases h
        · rename_i p alb c₂ hadd
          split at h
          · rename_i a0 hlook
            simp only [Except.ok.injEq, Prod.mk.injEq] at h
            rw [← h.1, ← h.2]
            exact ⟨hlook, Or.inr ⟨hmiss, j, alb, hj, hadd⟩⟩
          · cases h

theorem addAlbumsToList_core : ∀ (ajs : List AlbumJson) (acc : List Album)
    (c : Cache) (acc' : List Album) (c' : Cache),
    addAlbumsToList ajs acc c = .ok (acc', c') → coreEq c c' ∧ c'.log = c.log := by
  intro ajs
  induction ajs with
  | nil =>
    intro acc c acc' c' h
    simp only [addAlbumsToList, Except.ok.injEq, Prod.mk.injEq] at h
    rw [← h.2]
    exact ⟨coreEq_refl c, rfl⟩
  | cons j rest ih =>
    intro acc c acc' c' h
    simp only [addAlbumsToList] at h
    split at h
    · cases h
    · rename_i p alb c₂ ha
      obtain ⟨hcore, hlog, -⟩ := add_album_core c j alb c₂ ha
      obtain ⟨hcore', hlog'⟩ := ih _ _ _ _ h
      exact ⟨coreEq_trans hcore hcore', hlog'.trans hlog⟩

theorem collectArtistAlbums_core : ∀ (aj : List (String × List AlbumJson))
    (acc : List Album) (c : Cache) (acc' : List Album) (c' : Cache),
    collectArtistAlbums aj acc c = .ok (acc', c') →
    coreEq c c' ∧ c'.log = c.log := by
  intro aj
  induction aj with
  | nil =>
    intro acc c acc' c' h
    simp only [collectArtistAlbums, Except.ok.injEq, Prod.mk.injEq] at h
    rw [← h.2]
    exact ⟨coreEq_refl c, rfl⟩
  | cons grp rest ih =>
    obtain ⟨name, ajs⟩ := grp
    intro acc c acc' c' h
    simp only [collectArtistAlbums] at h
    split at h
    · cases h
    · rename_i p acc₂ c₂ ha
      obtain ⟨hcore, hlog⟩ := addAlbumsToList_core _ _ _ _ _ ha
      obtain ⟨hcore', hlog'⟩ := ih _ _ _ _ h
      exact ⟨coreEq_trans hcore hcore', hlog'.trans hlog⟩

/-- Shape of a successful `add_artist_from_json`. -/
theorem add_artist_ok (c : Cache) (aj : List (String × List AlbumJson))
    (c' : Cache) (h : add_artist_from_json c aj = .ok c') :
    ∃ albums artist_name c₁,
      collectArtistAlbums aj [] c = .ok (albums, c₁) ∧
      lastGroupKey aj = some artist_name ∧
      c' = {c₁ with artist_details := upsert (strLower artist_name) ⟨artist_name, sortByLe artistAlbumLe albums⟩ c₁.artist_details} := by
  simp only [add_artist_from_json] at h
  split at h
  · cases h
  · rename_i p albums c₁ hcol
    split at h
    · cases h
    · rename_i artist_name hlast
      simp only [Except.ok.injEq] at h
      exact ⟨albums, artist_name, c₁, hcol, hlast, h.symm⟩

/-- Every successful `ensure_artist_cache` call either hit the cache or
populated it; the returned artist is the `artist_details` entry under the
lower-cased query name in the final state. -/
theorem ensure_artist_cache_ok (gv : GenreView) (up : Upstream) (c : Cache)
    (artist : String) (art : Artist) (c' : Cache)
    (h : ensure_artist_cache gv up c artist = .ok (art, c')) :
    ∃ c₀, ensure_genre_cache gv up c = .ok c₀ ∧
      lookupAssoc (strLower artist) c'.artist_details = some art ∧
      ((lookupAssoc (strLower artist) c₀.artist_details = some art ∧ c' = c₀) ∨
       (lookupAssoc (strLower artist) c₀.artist_details = none ∧
        ∃ aj, up.artists artist = some aj ∧
          add_artist_from_json {c₀ with log := artistUrl up artist :: c₀.log} aj = .ok c')) := by
  simp only [ensure_artist_cache] at h
  split at h
  · cases h
  · rename_i c₀ hens
    refine ⟨c₀, hens, ?_⟩
    split at h
    · rename_i a0 hhit
      simp only [Except.ok.injEq, Prod.mk.injEq] at h
      rw [← h.1, ← h.2]
      exact ⟨hhit, Or.inl ⟨hhit, rfl⟩⟩
    · rename_i hmiss
      split at h
      · cases h
      · rename_i aj haj
        split at h
        · cases h
        · rename_i c₂ hadd
          split at h
          · rename_i a0 hlook
            simp only [Except.ok.injEq, Prod.mk.injEq] at h
            rw [← h.1, ← h.2]
            exact ⟨hlook, Or.inr ⟨hmiss, aj, haj, hadd⟩⟩
          · cases h

/-! ## Concrete fixtures for witnesses and counterexamples -/

/-- A concrete classifier instance (the abstract `GenreView` evaluated at a
small table), used to exercise the operations on closed inputs. -/
def gvFix : GenreView :=
  ⟨fun n => if n = "Rock" then some "Rock"
            else if n = "Hard Rock" then some "Rock"
            else if n = "Jazz" then some "Jazz" else none,
   "Uncategorised",
   fun n => if n = "Rock" then 0 else 1,
   fun n => n⟩

def albumDefault : Album := ⟨"", none, none, none, "", none, 0, [], ""⟩

def ajBob1 : AlbumJson :=
  ⟨"/albums/1", ["/genres/1"], some "Bob", some "Alpha", some 2000, "/art/1", 1,
   [⟨"/tracks/1", "T1", some 1, some 2⟩, ⟨"/tracks/2", "T2", none, some 1⟩,
    ⟨"/tracks/3", "T3", some 1, some 1⟩]⟩

/-- Main happy-path fixture: one genre with one upstream link, one album,
one artist. -/
def upFix : Upstream :=
  ⟨"http://s", some [⟨"/genres/1", "Rock"⟩],
   fun l => if l = "/genres/1" then some [ajBob1] else none,
   fun i => if i = "1" then some ajBob1 else none,
   fun n => if n = "Bob" then some [("Bob", [ajBob1])] else none⟩

/-- The cache state after `ensure_genre_cache` has populated from `upFix`. -/
def gcFix : Cache :=
  match ensure_genre_cache gvFix upFix cacheInit with
  | .ok c => c
  | .error _ => cacheInit

def glFix : List (String × List String) :=
  match gcFix.genre_links with
  | some gl => gl
  | none => []

/-! ## Claim C7 -/

/-- Claim C7: for every genre name not present in the genre index,
`ensure_genre_contents_cache` returns `none` ("not found") — not an error —
and the final state is exactly the post-`ensure_genre_cache` state `c₀`:
no upstream album fetch is performed (the log of `c₀` extends the log of
`c` only by the genre-index request, and only when the index was not yet
populated). -/
theorem unknown_genre_returns_not_found (gv : GenreView) (up : Upstream)
    (c c₀ : Cache) (g : String) (gl : List (String × List String))
    (h1 : ensure_genre_cache gv up c = .ok c₀)
    (h2 : c₀.genre_links = some gl)
    (h3 : lookupAssoc g gl = none)
    (h4 : lookupAssoc g c₀.albums_in_genre = none) :
    ensure_genre_contents_cache gv up c g = .ok (none, c₀) := by
  simp only [ensure_genre_contents_cache, h1, h4, h2, h3]

theorem unknown_genre_returns_not_found_witness :
    ensure_genre_cache gvFix upFix cacheInit = .ok gcFix ∧
    ensure_genre_contents_cache gvFix upFix cacheInit "NoSuchGenre" =
      .ok (none, gcFix) :=
  ⟨rfl, unknown_genre_returns_not_found gvFix upFix cacheInit gcFix
    "NoSuchGenre" glFix rfl rfl rfl rfl⟩

/-! ## Claim C6 -/

/-- Fixture with an empty upstream: every album/artist fetch is non-200. -/
def upNF : Upstream :=
  ⟨"http://s", some [], fun _ => none, fun _ => none, fun _ => none⟩

def gcNF : Cache :=
  match ensure_genre_cache gvFix upNF cacheInit with
  | .ok c => c
  | .error _ => cacheInit

/-- Claim C6 counterexample: with album id `"x"` not cached and the upstream
album-detail fetch returning non-200, `ensure_album_cache` raises
`flask.abort(500)` — a fatal/server error (`src/main.py:105`) — and not a
"not found" outcome; 500 is not the not-found status 404. -/
theorem album_non200_aborts_500_counterexample :
    ensure_album_cache gvFix upNF cacheInit "x" = .error (.httpAbort 500) ∧
    PyError.httpAbort 500 ≠ PyError.httpAbort 404 := by
  exact ⟨rfl, by decide⟩

/-- Claim C6 (amended): for an uncached album id, a non-200 upstream
album-detail response makes `ensure_album_cache` fail with the fatal
server error `abort(500)`; it is the *artist* lookup that reinterprets a
non-200 as not-found (`abort(404)`). -/
theorem single_entity_non200_amended (gv : GenreView) (up : Upstream)
    (c c₀ : Cache) (album_id artist : String)
    (h1 : ensure_genre_cache gv up c = .ok c₀) :
    (lookupAssoc album_id c₀.album_details = none → up.albums album_id = none →
       ensure_album_cache gv up c album_id = .error (.httpAbort 500)) ∧
    (lookupAssoc (strLower artist) c₀.artist_details = none →
       up.artists artist = none →
       ensure_artist_cache gv up c artist = .error (.httpAbort 404)) := by
  constructor
  · intro hmiss hup
    simp only [ensure_album_cache, h1, hmiss, hup]
  · intro hmiss hup
    simp only [ensure_artist_cache, h1, hmiss, hup]

theorem single_entity_non200_amended_witness :
    ensure_album_cache gvFix upNF cacheInit "x" = .error (.httpAbort 500) ∧
    ensure_artist_cache gvFix upNF cacheInit "Nobody" = .error (.httpAbort 404) :=
  ⟨(single_entity_non200_amended gvFix upNF cacheInit gcNF "x" "Nobody" rfl).1
      rfl rfl,
   (single_entity_non200_amended gvFix upNF cacheInit gcNF "x" "Nobody" rfl).2
      rfl rfl⟩

/-! ## Claim C5 -/

/-- The remaining `Album` fields produced by `add_album_from_json`
(`src/main.py:135-143`): pass-throughs, the anchor, and the sorted tracks. -/
theorem add_album_fields (c : Cache) (j : AlbumJson) (alb : Album) (c' : Cache)
    (h : add_album_from_json c j = .ok (alb, c')) :
    alb.artist = j.artist ∧ alb.title = j.title ∧ alb.year = j.releasedate ∧
    alb.anchor = anchorOf j.artist ∧
    ∃ ts, tracksFromJson j.tracks = some ts ∧ alb.tracks = sortByLe trackLe ts := by
  simp only [add_album_from_json] at h
  split at h
  · cases h
  · rename_i album_id hid
    split at h
    · cases h
    · split at h
      · cases h
      · rename_i ts hts
        simp only [Except.ok.injEq, Prod.mk.injEq] at h
        rw [← h.1]
        exact ⟨rfl, rfl, rfl, rfl, ts, hts, rfl⟩

def ajNoArtist : AlbumJson :=
  ⟨"/albums/1", [], none, some "T", some 2000, "/art", 1, []⟩

def anchorNoArtist : String :=
  match add_album_from_json cacheInit ajNoArtist with
  | .ok (alb, _) => alb.anchor
  | .error _ => "error"

/-- Claim C5 counterexample: for an album payload whose artist is missing,
the code (`src/main.py:124`) sets the anchor to `'U'` — which is one of the
26 plain letters and therefore survives the `'num'` fallback — whereas the
claim demands `"num"` for an empty or missing artist. -/
theorem anchor_missing_artist_counterexample :
    anchorNoArtist = "U" ∧ ("U" : String) ≠ "num" :=
  ⟨rfl, by decide⟩

/-- Claim C5 (amended): the anchor of every normalized album is
`anchorOf artist`: the first character of the artist name upper-cased, then
transliterated to ASCII, replaced by the sentinel `"num"` when the result
is not one of the 26 plain uppercase letters; an empty or missing artist
however yields the literal `'U'` (which is a plain letter, so it stays).
Examples: `"Étienne" ↦ "E"`, `"" ↦ "U"`, `none ↦ "U"`,
`"3 Doors Down" ↦ "num"`. -/
theorem anchor_derivation_amended :
    (∀ (c : Cache) (j : AlbumJson) (alb : Album) (c' : Cache),
       add_album_from_json c j = .ok (alb, c') → alb.anchor = anchorOf j.artist) ∧
    anchorOf (some "Étienne") = "E" ∧
    anchorOf none = "U" ∧
    anchorOf (some "") = "U" ∧
    anchorOf (some "3 Doors Down") = "num" := by
  refine ⟨?_, rfl, rfl, rfl, rfl⟩
  intro c j alb c' h
  exact (add_album_fields c j alb c' h).2.2.2.1

def ajEtienne : AlbumJson :=
  ⟨"/albums/2", [], some "Étienne", some "T", some 2000, "/art", 1, []⟩

def albEtienne : Album :=
  match add_album_from_json cacheInit ajEtienne with
  | .ok (alb, _) => alb
  | .error _ => albumDefault

def stEtienne : Cache :=
  match add_album_from_json cacheInit ajEtienne with
  | .ok (_, c) => c
  | .error _ => cacheInit

theorem anchor_derivation_amended_witness :
    albEtienne.anchor = anchorOf (some "Étienne") ∧ albEtienne.anchor = "E" :=
  ⟨anchor_derivation_amended.1 cacheInit ajEtienne albEtienne stEtienne rfl,
   rfl⟩

/-! ## Claim C4 -/

theorem intPairLe_refl (k : Int × Int) : intPairLe k k = true := by
  unfold intPairLe lexLe intLtB intLeB
  simp

def ajDiskBig : AlbumJson :=
  ⟨"/albums/7", [], some "x", some "t", some 2000, "/a", 2,
   [⟨"/tracks/1", "a", some 10000, some 1⟩, ⟨"/tracks/2", "b", none, some 1⟩]⟩

def tracksDiskBig : List (Option Int) :=
  match add_album_from_json cacheInit ajDiskBig with
  | .ok (alb, _) => alb.tracks.map Track.disknumber
  | .error _ => []

/-- Claim C4 counterexample: the missing-disk sentinel is the literal `9999`
(`src/main.py:133`), not a maximum: a track with `disknumber = 10000` sorts
*after* a track with no disk number, so unknown-disk tracks do not sort
last in general. The claim's order would be `[some 10000, none]`. -/
theorem track_missing_disk_counterexample :
    tracksDiskBig = [none, some 10000] ∧
    ([none, some 10000] : List (Option Int)) ≠ [some 10000, none] :=
  ⟨rfl, by decide⟩

/-- Claim C4 (amended): every normalized album's tracks are sorted ascending
by the key `(disknumber or 9999, tracknumber or 0)` — missing disk is the
finite sentinel `9999` (so it sorts after every disk below `9999` but not
after larger ones), missing track number is `0`; the sort is stable (the
subsequence of tracks with any fixed key keeps its upstream order) and a
permutation of its input; the claim's concrete example
`[(1,2), (None,1), (1,1)] ↦ [(1,1), (1,2), (None,1)]` holds. -/
theorem tracks_sorted_amended :
    (∀ (c : Cache) (j : AlbumJson) (alb : Album) (c' : Cache),
       add_album_from_json c j = .ok (alb, c') →
       alb.tracks.Pairwise (fun t u => trackLe t u = true)) ∧
    (∀ ts : List Track, List.Perm (sortByLe trackLe ts) ts) ∧
    (∀ (ts : List Track) (k : Int × Int),
       (sortByLe trackLe ts).filter (fun t => decide (track_sort_key t = k)) =
         ts.filter (fun t => decide (track_sort_key t = k))) ∧
    sortByLe trackLe
        [⟨"1", "a", some 1, some 2⟩, ⟨"2", "b", none, some 1⟩,
         ⟨"3", "c", some 1, some 1⟩] =
      [⟨"3", "c", some 1, some 1⟩, ⟨"1", "a", some 1, some 2⟩,
       ⟨"2", "b", none, some 1⟩] := by
  refine ⟨?_, fun ts => sortByLe_perm trackLe ts, ?_, by decide⟩
  · intro c j alb c' h
    obtain ⟨-, -, -, -, ts, -, htr⟩ := add_album_fields c j alb c' h
    rw [htr]
    exact sortByLe_pairwise trackLe trackLe_total trackLe_trans ts
  · intro ts k
    apply sortByLe_filter_stable
    intro x y hx hy
    have hx' : track_sort_key x = k := by simpa using hx
    have hy' : track_sort_key y = k := by simpa using hy
    unfold trackLe
    rw [hx', hy']
    exact intPairLe_refl k

def albDiskBig : Album :=
  match add_album_from_json cacheInit ajDiskBig with
  | .ok (alb, _) => alb
  | .error _ => albumDefault

def stDiskBig : Cache :=
  match add_album_from_json cacheInit ajDiskBig with
  | .ok (_, c) => c
  | .error _ => cacheInit

theorem tracks_sorted_amended_witness :
    albDiskBig.tracks.Pairwise (fun t u => trackLe t u = true) :=
  tracks_sorted_amended.1 cacheInit ajDiskBig albDiskBig stDiskBig rfl

/-! ## Claim C8 -/

def artistGroupsY : List (String × List AlbumJson) :=
  [("X", [⟨"/albums/5", [], some "x", some "t", some 10000, "/a", 1, []⟩,
          ⟨"/albums/6", [], some "x", some "t", none, "/a", 1, []⟩])]

def artistYearsY : Option (List (Option Int)) :=
  match add_artist_from_json cacheInit artistGroupsY with
  | .ok c => (lookupAssoc "x" c.artist_details).map
      (fun art => art.albums.map Album.year)
  | .error _ => none

/-- Claim C8 counterexample: the missing-year sentinel in the artist-album
sort is the literal `9999` (`src/main.py:155`), not "larger than any real
year": an album with year `10000` sorts *after* an album with no year, so
missing-year albums are not placed last in general. The claim's order would
be `[some 10000, none]`. -/
theorem artist_missing_year_counterexample :
    artistYearsY = some [none, some 10000] ∧
    some ([none, some 10000] : List (Option Int)) ≠
      some [some 10000, none] :=
  ⟨rfl, by decide⟩

/-- Claim C8 (amended): for every grouped artist payload, normalization
concatenates the normalized albums of all groups (in group order) into one
sequence, sorts it ascending by `year if year else 9999` (albums whose year
is missing — or `0`, which Python truthiness also maps to the sentinel —
sort as `9999`: after every smaller real year but not after years ≥ 9999),
sets the displayed name to the last group key, and stores the Artist under
the lower-cased last group key. -/
theorem artist_normalization_amended (c : Cache)
    (aj : List (String × List AlbumJson)) (c' : Cache) (albums : List Album)
    (artist_name : String) (c₁ : Cache)
    (hcol : collectArtistAlbums aj [] c = .ok (albums, c₁))
    (hlast : lastGroupKey aj = some artist_name)
    (h : add_artist_from_json c aj = .ok c') :
    lookupAssoc (strLower artist_name) c'.artist_details =
      some ⟨artist_name, sortByLe artistAlbumLe albums⟩ ∧
    (sortByLe artistAlbumLe albums).Pairwise
      (fun a b => artistAlbumLe a b = true) ∧
    List.Perm (sortByLe artistAlbumLe albums) albums ∧
    c'.log = c.log := by
  obtain ⟨albums', artist_name', c₁', hcol', hlast', hc⟩ := add_artist_ok c aj c' h
  rw [hcol] at hcol'
  rw [hlast] at hlast'
  simp only [Except.ok.injEq, Prod.mk.injEq, Option.some.injEq] at hcol' hlast'
  obtain ⟨ha, hc₁⟩ := hcol'
  subst ha
  subst hc₁
  subst hlast'
  subst hc
  refine ⟨lookupAssoc_upsert_self _ _ _,
    sortByLe_pairwise artistAlbumLe artistAlbumLe_total artistAlbumLe_trans _,
    sortByLe_perm _ _, ?_⟩
  exact (collectArtistAlbums_core aj [] c albums c₁ hcol).2

def artistColY : List Album :=
  match collectArtistAlbums artistGroupsY [] cacheInit with
  | .ok (albs, _) => albs
  | .error _ => []

def artistColStY : Cache :=
  match collectArtistAlbums artistGroupsY [] cacheInit with
  | .ok (_, c) => c
  | .error _ => cacheInit

def artistStY : Cache :=
  match add_artist_from_json cacheInit artistGroupsY with
  | .ok c => c
  | .error _ => cacheInit

theorem artist_normalization_amended_witness :
    lookupAssoc "x" artistStY.artist_details =
      some ⟨"X", sortByLe artistAlbumLe artistColY⟩ ∧
    (sortByLe artistAlbumLe artistColY).Pairwise
      (fun a b => artistAlbumLe a b = true) :=
  ⟨(artist_normalization_amended cacheInit artistGroupsY artistStY artistColY
      "X" artistColStY rfl rfl rfl).1,
   (artist_normalization_amended cacheInit artistGroupsY artistStY artistColY
      "X" artistColStY rfl rfl rfl).2.1⟩

/-! ## Claim C3 -/

def ajTitleZ : AlbumJson :=
  ⟨"/albums/9", [], some "bob", some "zzzzzzzzzzzz", some 1990, "/a", 1, []⟩

def ajTitleNone : AlbumJson :=
  ⟨"/albums/8", [], some "bob", none, some 1990, "/a", 1, []⟩

def upTitles : Upstream :=
  ⟨"http://s", some [⟨"/genres/1", "Rock"⟩],
   fun l => if l = "/genres/1" then some [ajTitleZ, ajTitleNone] else none,
   fun _ => none, fun _ => none⟩

def titlesRock : List (Option String) :=
  match ensure_genre_contents_cache gvFix upTitles cacheInit "Rock" with
  | .ok (some l, _) => l.map Album.title
  | _ => []

/-- Claim C3 counterexample: the missing-title sentinel is the literal
string `"ZZZZZZZZZZZ"` (11 Z's, `src/main.py:91`), which does not sort
after *all* real titles: with equal artist and year, the album with no
title sorts *before* an album titled `"zzzzzzzzzzzz"` (12 z's, of which
the lower-cased sentinel is a proper prefix). The claim's sentinel
semantics would order the real title first. -/
theorem genre_sort_missing_title_counterexample :
    titlesRock = [none, some "zzzzzzzzzzzz"] ∧
    ([none, some "zzzzzzzzzzzz"] : List (Option String)) ≠
      [some "zzzzzzzzzzzz", none] :=
  ⟨rfl, by decide⟩

def ajBacA : AlbumJson :=
  ⟨"/albums/21", [], some "Bob", some "t", some 2000, "/a", 1, []⟩

def ajBacB : AlbumJson :=
  ⟨"/albums/22", [], some "bob", some "t", some 1990, "/a", 1, []⟩

def ajBacC : AlbumJson :=
  ⟨"/albums/23", [], none, some "X", some 1995, "/a", 1, []⟩

def upBac : Upstream :=
  ⟨"http://s", some [⟨"/genres/1", "Rock"⟩],
   fun l => if l = "/genres/1" then some [ajBacA, ajBacB, ajBacC] else none,
   fun _ => none, fun _ => none⟩

def bacList : List Album :=
  match ensure_genre_contents_cache gvFix upBac cacheInit "Rock" with
  | .ok (some l, _) => l
  | _ => []

def bacState : Cache :=
  match ensure_genre_contents_cache gvFix upBac cacheInit "Rock" with
  | .ok (_, c) => c
  | _ => cacheInit

/-- Claim C3 (amended): every album list materialized by a populating
`ensure_genre_contents_cache` call is sorted ascending (`Pairwise`) by the
`get_album_sort_order` key — quote-stripped/transliterated/lower-cased
artist with missing artist as "Unknown Artist", year with missing year as
0 (sorting first), and transliterated/lower-cased title with a *missing
title replaced by the literal string "ZZZZZZZZZZZ"* (which sorts after
titles that are lexicographically smaller, but not after all possible
titles); in particular albums A(artist="Bob", year=2000),
B(artist="bob", year=1990), C(artist=None, year=1995, title="X") sort to
order B, A, C. -/
theorem genre_contents_sorted_amended :
    (∀ (gv : GenreView) (up : Upstream) (c : Cache) (g : String)
       (l : List Album) (c'' : Cache),
       lookupAssoc g c.albums_in_genre = none →
       ensure_genre_contents_cache gv up c g = .ok (some l, c'') →
       l.Pairwise (fun a b => albumLe a b = true)) ∧
    bacList.map Album.artist = [some "bob", some "Bob", none] ∧
    bacList.map Album.year = [some 1990, some 2000, some 1995] := by
  refine ⟨?_, rfl, rfl⟩
  intro gv up c g l c'' hmiss h
  obtain ⟨c₀, hens, hbr⟩ := ensure_genre_contents_ok gv up c g (some l) c'' h
  obtain ⟨-, halb, -, -, -, -⟩ := ensure_genre_cache_ok gv up c c₀ hens
  rcases hbr with ⟨cached, hc, -, -⟩ | ⟨-, gl, -, hbr⟩
  · rw [halb, hmiss] at hc
    cases hc
  · rcases hbr with ⟨-, hr, -⟩ | ⟨links, dict, c', albums, -, -, halbums, hr, -⟩
    · cases hr
    · simp only [Option.some.injEq] at hr
      subst hr
      rw [halbums]
      exact sortByLe_pairwise albumLe albumLe_total albumLe_trans _

theorem genre_contents_sorted_amended_witness :
    bacList.Pairwise (fun a b => albumLe a b = true) :=
  genre_contents_sorted_amended.1 gvFix upBac cacheInit "Rock" bacList
    bacState rfl rfl

/-! ## Claim C2 -/

def ajDup1 : AlbumJson :=
  ⟨"/albums/1", [], some "Bob", some "t", some 2000, "/a", 1, []⟩

def ajDup2 : AlbumJson :=
  ⟨"/albums/2", [], some "bob", some "t", some 1990, "/a", 1, []⟩

/-- Two upstream genres classified into the same display genre "Rock", whose
links both list the album with id "1". -/
def upDup : Upstream :=
  ⟨"http://s", some [⟨"/genres/1", "Rock"⟩, ⟨"/genres/2", "Hard Rock"⟩],
   fun l => if l = "/genres/1" then some [ajDup1]
            else if l = "/genres/2" then some [ajDup1, ajDup2] else none,
   fun _ => none, fun _ => none⟩

def dupList : List Album :=
  match ensure_genre_contents_cache gvFix upDup cacheInit "Rock" with
  | .ok (some l, _) => l
  | _ => []

def dupState : Cache :=
  match ensure_genre_contents_cache gvFix upDup cacheInit "Rock" with
  | .ok (_, c) => c
  | _ => cacheInit

/-- Claim C2: a populating `ensure_genre_contents_cache` call returns a list
whose album ids are pairwise distinct (at most once), and every album listed
by any upstream link of the genre appears in the list under its id (at least
once) — so an album listed by two upstream links of the same display genre
appears exactly once. The concrete two-link fixture shows album id "1",
listed by both links, appearing exactly once. -/
theorem genre_contents_dedup_by_id :
    (∀ (gv : GenreView) (up : Upstream) (c : Cache) (g : String)
       (l : List Album) (c'' : Cache),
       lookupAssoc g c.albums_in_genre = none →
       ensure_genre_contents_cache gv up c g = .ok (some l, c'') →
       (l.map Album.id).Nodup ∧
       (∀ (c₀ : Cache) (gl : List (String × List String)) (links : List String),
          ensure_genre_cache gv up c = .ok c₀ →
          c₀.genre_links = some gl →
          lookupAssoc g gl = some links →
          ∀ link ∈ links, ∀ ajs, up.genreAlbums link = some ajs →
            ∀ j ∈ ajs, ∃ a ∈ l, id_from_link j.link = some a.id)) ∧
    dupList.map Album.id = ["2", "1"] ∧
    (dupList.map Album.id).count "1" = 1 := by
  refine ⟨?_, rfl, rfl⟩
  intro gv up c g l c'' hmiss h
  obtain ⟨c₀, hens, hbr⟩ := ensure_genre_contents_ok gv up c g (some l) c'' h
  obtain ⟨-, halb, -, -, -, -⟩ := ensure_genre_cache_ok gv up c c₀ hens
  rcases hbr with ⟨cached, hc, -, -⟩ | ⟨-, gl, hgl, hbr⟩
  · rw [halb, hmiss] at hc
    cases hc
  · rcases hbr with ⟨-, hr, -⟩ | ⟨links, dict, c', albums, hlinks, hfetch, halbums, hr, -⟩
    · cases hr
    · simp only [Option.some.injEq] at hr
      subst hr
      have hinv : DictInv dict c' :=
        fetchGenreAlbums_inv up links [] c₀ dict c' hfetch (DictInv_nil c₀)
      have hperm : List.Perm l (dict.map Prod.snd) := by
        rw [halbums]
        exact sortByLe_perm albumLe _
      constructor
      · have hpm := hperm.map Album.id
        rw [List.map_map] at hpm
        have heq : dict.map (Album.id ∘ Prod.snd) = dict.map Prod.fst :=
          List.map_congr_left (fun kv hkv => (hinv.2 kv hkv).1)
        rw [heq] at hpm
        exact (List.Perm.nodup_iff hpm).mpr hinv.1
      · intro c₀' gl' links' hens' hgl' hlinks' link hlink ajs hup j hj
        rw [hens] at hens'
        simp only [Except.ok.injEq] at hens'
        subst hens'
        rw [hgl] at hgl'
        simp only [Option.some.injEq] at hgl'
        subst hgl'
        rw [hlinks] at hlinks'
        simp only [Option.some.injEq] at hlinks'
        subst hlinks'
        obtain ⟨key, hkey, hmem⟩ :=
          fetchGenreAlbums_coverage up links [] c₀ dict c' hfetch link hlink
            ajs hup j hj
        obtain ⟨kv, hkv, hfst⟩ := List.mem_map.mp hmem
        refine ⟨kv.2, ?_, ?_⟩
        · exact hperm.mem_iff.mpr (List.mem_map_of_mem Prod.snd hkv)
        · rw [hkey, (hinv.2 kv hkv).1, hfst]

theorem genre_contents_dedup_by_id_witness :
    (dupList.map Album.id).Nodup :=
  (genre_contents_dedup_by_id.1 gvFix upDup cacheInit "Rock" dupList dupState
    rfl rfl).1

/-! ## Claim C9 -/

def ajShared1 : AlbumJson :=
  ⟨"/albums/x", [], some "A", some "TitleA", some 1990, "/a", 1, []⟩

def ajShared2 : AlbumJson :=
  ⟨"/albums/x", [], some "A", some "TitleB", some 1990, "/a", 1, []⟩

/-- Two display genres whose upstream payloads both carry album id "x", but
with different titles. -/
def upShared : Upstream :=
  ⟨"http://s", some [⟨"/genres/1", "Rock"⟩, ⟨"/genres/2", "Jazz"⟩],
   fun l => if l = "/genres/1" then some [ajShared1]
            else if l = "/genres/2" then some [ajShared2] else none,
   fun _ => none, fun _ => none⟩

def sharedC1 : Cache :=
  match ensure_genre_contents_cache gvFix upShared cacheInit "Rock" with
  | .ok (_, c) => c
  | _ => cacheInit

def sharedC2 : Cache :=
  match ensure_genre_contents_cache gvFix upShared sharedC1 "Jazz" with
  | .ok (_, c) => c
  | _ => cacheInit

def sharedL3 : List Album :=
  match ensure_genre_contents_cache gvFix upShared sharedC2 "Rock" with
  | .ok (some l, _) => l
  | _ => []

def sharedC3 : Cache :=
  match ensure_genre_contents_cache gvFix upShared sharedC2 "Rock" with
  | .ok (_, c) => c
  | _ => cacheInit

def sharedAlb : Album :=
  match sharedL3 with
  | a :: _ => a
  | [] => albumDefault

/-- Claim C9 counterexample: browse "Rock" (populates album "x" from the
Rock payload), then "Jazz" (re-normalizes "x" from the Jazz payload,
overwriting `album_details["x"]`), then "Rock" again: the third call
succeeds and returns the cached Rock list, but its album "x" (title
"TitleA") is no longer the record in the album-by-id table (title
"TitleB") — the two occurrences are not field-for-field identical. -/
theorem genre_list_album_details_diverge_counterexample :
    sharedAlb ∈ sharedL3 ∧
    lookupAssoc sharedAlb.id sharedC3.album_details ≠ some sharedAlb ∧
    (lookupAssoc sharedAlb.id sharedC3.album_details).isSome = true := by
  refine ⟨by decide, by decide, by decide⟩

/-- Claim C9 (amended): immediately after an `ensure_genre_contents_cache`
call that *populates* the genre (cache miss), every Album in the returned
list is present in `album_details` under its id and is the same record,
field for field. (A later re-normalization of the same id from a different
payload — another genre or the artist endpoint — replaces the
`album_details` entry, so the property is not an invariant of cache-hit
returns unless upstream payloads agree per album id.) -/
theorem populated_genre_list_shares_records (gv : GenreView) (up : Upstream)
    (c : Cache) (g : String) (l : List Album) (c'' : Cache)
    (hmiss : lookupAssoc g c.albums_in_genre = none)
    (h : ensure_genre_contents_cache gv up c g = .ok (some l, c'')) :
    ∀ a ∈ l, lookupAssoc a.id c''.album_details = some a := by
  obtain ⟨c₀, hens, hbr⟩ := ensure_genre_contents_ok gv up c g (some l) c'' h
  obtain ⟨-, halb, -, -, -, -⟩ := ensure_genre_cache_ok gv up c c₀ hens
  rcases hbr with ⟨cached, hc, -, -⟩ | ⟨-, gl, -, hbr⟩
  · rw [halb, hmiss] at hc
    cases hc
  · rcases hbr with ⟨-, hr, -⟩ | ⟨links, dict, c', albums, -, hfetch, halbums, hr, hcc⟩
    · cases hr
    · simp only [Option.some.injEq] at hr
      subst hr
      subst hcc
      have hinv : DictInv dict c' :=
        fetchGenreAlbums_inv up links [] c₀ dict c' hfetch (DictInv_nil c₀)
      intro a ha
      rw [halbums] at ha
      have hmem : a ∈ dict.map Prod.snd :=
        (sortByLe_perm albumLe (dict.map Prod.snd)).mem_iff.mp ha
      obtain ⟨kv, hkv, hsnd⟩ := List.mem_map.mp hmem
      obtain ⟨hid, hlook⟩ := hinv.2 kv hkv
      show lookupAssoc a.id c'.album_details = some a
      rw [← hsnd, hid]
      exact hlook

def sharedAlb1 : Album :=
  match ensure_genre_contents_cache gvFix upShared cacheInit "Rock" with
  | .ok (some (a :: _), _) => a
  | _ => albumDefault

theorem populated_genre_list_shares_records_witness :
    lookupAssoc sharedAlb1.id sharedC1.album_details = some sharedAlb1 := by
  refine populated_genre_list_shares_records gvFix upShared cacheInit "Rock"
    (match ensure_genre_contents_cache gvFix upShared cacheInit "Rock" with
     | .ok (some l, _) => l
     | _ => []) sharedC1 rfl rfl sharedAlb1 (by decide)

/-! ## Claim C10 -/

theorem lastGroupKey_mem : ∀ (aj : List (String × List AlbumJson)) (k : String),
    lastGroupKey aj = some k → ∃ v, (k, v) ∈ aj := by
  intro aj
  induction aj with
  | nil => intro k h; cases h
  | cons hd rest ih =>
    obtain ⟨k0, v0⟩ := hd
    intro k h
    cases rest with
    | nil =>
      simp only [lastGroupKey, Option.some.injEq] at h
      subst h
      exact ⟨v0, List.mem_cons_self _ _⟩
    | cons hd2 rest2 =>
      rw [show lastGroupKey ((k0, v0) :: hd2 :: rest2) =
        lastGroupKey (hd2 :: rest2) from rfl] at h
      obtain ⟨v, hv⟩ := ih k h
      exact ⟨v, List.mem_cons_of_mem _ hv⟩

/-- Claim C10: when the artist is not cached and the upstream request
succeeds (200) but returns an empty mapping, or a mapping none of whose
group keys lower-cases to the lower-cased query name, `ensure_artist_cache`
raises an exception (Python `NameError` from the unbound `artist_name`
local, resp. `KeyError` from the final
`self.artist_details[artist_lookup]`), instead of returning an Artist or a
not-found response. -/
theorem artist_cache_key_mismatch_raises (gv : GenreView) (up : Upstream)
    (c c₀ : Cache) (artist : String) (aj : List (String × List AlbumJson))
    (h1 : ensure_genre_cache gv up c = .ok c₀)
    (h2 : lookupAssoc (strLower artist) c₀.artist_details = none)
    (h3 : up.artists artist = some aj)
    (hall : ∀ grp ∈ aj, strLower grp.1 ≠ strLower artist) :
    (aj = [] → ensure_artist_cache gv up c artist = .error .nameError) ∧
    (∀ (albums : List Album) (c₁ : Cache) (k : String),
       collectArtistAlbums aj []
           {c₀ with log := artistUrl up artist :: c₀.log} = .ok (albums, c₁) →
       lastGroupKey aj = some k →
       ensure_artist_cache gv up c artist = .error .keyError) := by
  constructor
  · intro he
    subst he
    simp only [ensure_artist_cache, h1, h2, h3, add_artist_from_json,
      collectArtistAlbums, lastGroupKey]
  · intro albums c₁ k hcol hlast
    obtain ⟨v, hmem⟩ := lastGroupKey_mem aj k hlast
    have hne : strLower k ≠ strLower artist := hall (k, v) hmem
    have hcore := (collectArtistAlbums_core aj [] _ albums c₁ hcol).1
    have hart : c₁.artist_details = c₀.artist_details := hcore.2.2.2.2.2
    simp only [ensure_artist_cache, h1, h2, h3, add_artist_from_json, hcol,
      hlast]
    rw [lookupAssoc_upsert_ne (strLower k) (strLower artist)
      ⟨k, sortByLe artistAlbumLe albums⟩ (Ne.symm hne) c₁.artist_details,
      hart, h2]

def upMismatch : Upstream :=
  ⟨"http://s", some [], fun _ => none, fun _ => none,
   fun n => if n = "Prince" then some [("The Artist", [])] else none⟩

def gcMismatch : Cache :=
  match ensure_genre_cache gvFix upMismatch cacheInit with
  | .ok c => c
  | .error _ => cacheInit

def upEmptyGroups : Upstream :=
  ⟨"http://s", some [], fun _ => none, fun _ => none, fun _ => some []⟩

def gcEmptyGroups : Cache :=
  match ensure_genre_cache gvFix upEmptyGroups cacheInit with
  | .ok c => c
  | .error _ => cacheInit

def colMismatchSt : Cache :=
  match collectArtistAlbums [("The Artist", ([] : List AlbumJson))] []
      {gcMismatch with log := artistUrl upMismatch "Prince" :: gcMismatch.log} with
  | .ok (_, c) => c
  | .error _ => cacheInit

theorem artist_cache_key_mismatch_raises_witness :
    ensure_artist_cache gvFix upMismatch cacheInit "Prince" =
      .error .keyError ∧
    ensure_artist_cache gvFix upEmptyGroups cacheInit "Prince" =
      .error .nameError :=
  ⟨(artist_cache_key_mismatch_raises gvFix upMismatch cacheInit gcMismatch
      "Prince" [("The Artist", [])] rfl rfl rfl (by decide)).2
      [] colMismatchSt "The Artist" rfl rfl,
   (artist_cache_key_mismatch_raises gvFix upEmptyGroups cacheInit
      gcEmptyGroups "Prince" [] rfl rfl rfl (by simp)).1 rfl⟩

/-! ## Claim C1 -/

theorem ensure_genre_contents_idem (gv : GenreView) (up : Upstream) (c : Cache)
    (g : String) (r : Option (List Album)) (c'' : Cache)
    (h : ensure_genre_contents_cache gv up c g = .ok (r, c'')) :
    ensure_genre_contents_cache gv up c'' g = .ok (r, c'') := by
  obtain ⟨c₀, hens, hbr⟩ := ensure_genre_contents_ok gv up c g r c'' h
  obtain ⟨⟨d, hd⟩, -, -, -, -, -⟩ := ensure_genre_cache_ok gv up c c₀ hens
  rcases hbr with ⟨cached, hc, hr, hcc⟩ | ⟨hm, gl, hgl, hbr⟩
  · subst hcc
    subst hr
    simp only [ensure_genre_contents_cache,
      ensure_genre_cache_of_some gv up _ d hd, hc]
  · rcases hbr with ⟨hnone, hr, hcc⟩ |
      ⟨links, dict, c', albums, hlinks, hfetch, halbums, hr, hcc⟩
    · subst hcc
      subst hr
      simp only [ensure_genre_contents_cache,
        ensure_genre_cache_of_some gv up _ d hd, hm, hgl, hnone]
    · subst hr
      subst hcc
      have hcore := fetchGenreAlbums_core up links [] c₀ dict c' hfetch
      have hdN : ({c' with albums_in_genre := upsert g albums c'.albums_in_genre} : Cache).display_genres = some d := by
        show c'.display_genres = some d
        rw [hcore.1, hd]
      simp only [ensure_genre_contents_cache,
        ensure_genre_cache_of_some gv up _ d hdN, lookupAssoc_upsert_self]

theorem ensure_album_cache_idem (gv : GenreView) (up : Upstream) (c : Cache)
    (album_id : String) (a : Album) (c' : Cache)
    (h : ensure_album_cache gv up c album_id = .ok (a, c')) :
    ensure_album_cache gv up c' album_id = .ok (a, c') := by
  obtain ⟨c₀, hens, hlook, hbr⟩ := ensure_album_cache_ok gv up c album_id a c' h
  obtain ⟨⟨d, hd⟩, -, -, -, -, -⟩ := ensure_genre_cache_ok gv up c c₀ hens
  have hd' : c'.display_genres = some d := by
    rcases hbr with ⟨-, hcc⟩ | ⟨-, j, alb, -, hadd⟩
    · subst hcc; exact hd
    · rw [(add_album_core _ _ _ _ hadd).1.1]
      exact hd
  simp only [ensure_album_cache, ensure_genre_cache_of_some gv up c' d hd',
    hlook]

theorem add_artist_core (c : Cache) (aj : List (String × List AlbumJson))
    (c' : Cache) (h : add_artist_from_json c aj = .ok c') :
    c'.display_genres = c.display_genres ∧ c'.log = c.log := by
  obtain ⟨albums, nm, c₁, hcol, -, hc⟩ := add_artist_ok c aj c' h
  obtain ⟨hcore, hlog⟩ := collectArtistAlbums_core aj [] c albums c₁ hcol
  subst hc
  exact ⟨hcore.1, hlog⟩

theorem ensure_artist_cache_idem (gv : GenreView) (up : Upstream) (c : Cache)
    (artist : String) (a : Artist) (c' : Cache)
    (h : ensure_artist_cache gv up c artist = .ok (a, c')) :
    ensure_artist_cache gv up c' artist = .ok (a, c') := by
  obtain ⟨c₀, hens, hlook, hbr⟩ := ensure_artist_cache_ok gv up c artist a c' h
  obtain ⟨⟨d, hd⟩, -, -, -, -, -⟩ := ensure_genre_cache_ok gv up c c₀ hens
  have hd' : c'.display_genres = some d := by
    rcases hbr with ⟨-, hcc⟩ | ⟨-, aj, -, hadd⟩
    · subst hcc; exact hd
    · rw [(add_artist_core _ _ _ hadd).1]
      exact hd
  simp only [ensure_artist_cache, ensure_genre_cache_of_some gv up c' d hd',
    hlook]

/-- Claim C1: each of the four `ensure_*` operations is idempotent — a
second call with the same key returns the same content and leaves the
cache, including its request log, unchanged (so it issues no further
upstream fetch) — and a populating first call on a fresh key issues
exactly the fetches of that key: one request for the genre index, the
album detail, or the artist detail, and one request per upstream link of a
display genre (each such URL exactly once when the links are distinct). -/
theorem ensure_operations_idempotent :
    (∀ (gv : GenreView) (up : Upstream) (c c₁ : Cache),
       ensure_genre_cache gv up c = .ok c₁ →
       ensure_genre_cache gv up c₁ = .ok c₁ ∧
       (c.display_genres = none →
          c₁.log = (up.server ++ "/genres") :: c.log) ∧
       (∀ d, c.display_genres = some d → c₁ = c)) ∧
    (∀ (gv : GenreView) (up : Upstream) (c : Cache) (g : String)
       (r : Option (List Album)) (c₁ : Cache),
       ensure_genre_contents_cache gv up c g = .ok (r, c₁) →
       ensure_genre_contents_cache gv up c₁ g = .ok (r, c₁)) ∧
    (∀ (gv : GenreView) (up : Upstream) (c : Cache) (g : String)
       (gl : List (String × List String)) (links : List String)
       (l : List Album) (c₁ : Cache) (d : List String),
       c.display_genres = some d →
       lookupAssoc g c.albums_in_genre = none →
       c.genre_links = some gl →
       lookupAssoc g gl = some links →
       ensure_genre_contents_cache gv up c g = .ok (some l, c₁) →
       c₁.log = (links.map (genreContentsUrl up)).reverse ++ c.log ∧
       ((links.map (genreContentsUrl up)).Nodup →
          ∀ u ∈ links.map (genreContentsUrl up),
            c₁.log.count u = c.log.count u + 1)) ∧
    (∀ (gv : GenreView) (up : Upstream) (c : Cache) (album_id : String)
       (a : Album) (c₁ : Cache),
       ensure_album_cache gv up c album_id = .ok (a, c₁) →
       ensure_album_cache gv up c₁ album_id = .ok (a, c₁) ∧
       (∀ d, c.display_genres = some d →
          lookupAssoc album_id c.album_details = none →
          c₁.log = albumUrl up album_id :: c.log)) ∧
    (∀ (gv : GenreView) (up : Upstream) (c : Cache) (artist : String)
       (a : Artist) (c₁ : Cache),
       ensure_artist_cache gv up c artist = .ok (a, c₁) →
       ensure_artist_cache gv up c₁ artist = .ok (a, c₁) ∧
       (∀ d, c.display_genres = some d →
          lookupAssoc (strLower artist) c.artist_details = none →
          c₁.log = artistUrl up artist :: c.log)) := by
  refine ⟨?_, ?_, ?_, ?_, ?_⟩
  · intro gv up c c₁ h
    obtain ⟨-, -, -, -, hlog, hsome⟩ := ensure_genre_cache_ok gv up c c₁ h
    exact ⟨ensure_genre_cache_idem gv up c c₁ h, hlog, hsome⟩
  · intro gv up c g r c₁ h
    exact ensure_genre_contents_idem gv up c g r c₁ h
  · intro gv up c g gl links l c₁ d hd hmiss hglc hlinksc h
    obtain ⟨c₀, hens, hbr⟩ := ensure_genre_contents_ok gv up c g (some l) c₁ h
    have hc₀ : c₀ = c :=
      (ensure_genre_cache_ok gv up c c₀ hens).2.2.2.2.2 d hd
    rw [hc₀] at hbr
    rcases hbr with ⟨cached, hc, -, -⟩ | ⟨-, gl', hgl', hbr⟩
    · rw [hmiss] at hc
      cases hc
    · rw [hglc] at hgl'
      simp only [Option.some.injEq] at hgl'
      subst hgl'
      rcases hbr with ⟨hnone, -, -⟩ |
        ⟨links', dict, c', albums, hlinks', hfetch, halbums, hr, hcc⟩
      · rw [hlinksc] at hnone
        cases hnone
      · rw [hlinksc] at hlinks'
        simp only [Option.some.injEq] at hlinks'
        subst hlinks'
        have hlogeq : c₁.log = (links.map (genreContentsUrl up)).reverse ++ c.log := by
          subst hcc
          show c'.log = _
          exact fetchGenreAlbums_log up links [] c dict c' hfetch
        refine ⟨hlogeq, ?_⟩
        intro hnd u hu
        rw [hlogeq, List.count_append,
          (List.reverse_perm (links.map (genreContentsUrl up))).count_eq,
          List.count_eq_one_of_mem hnd hu]
        omega
  · intro gv up c album_id a c₁ h
    refine ⟨ensure_album_cache_idem gv up c album_id a c₁ h, ?_⟩
    intro d hd hmiss
    obtain ⟨c₀, hens, -, hbr⟩ := ensure_album_cache_ok gv up c album_id a c₁ h
    have hc₀ : c₀ = c :=
      (ensure_genre_cache_ok gv up c c₀ hens).2.2.2.2.2 d hd
    rw [hc₀] at hbr
    rcases hbr with ⟨hhit, -⟩ | ⟨-, j, alb, -, hadd⟩
    · rw [hmiss] at hhit
      cases hhit
    · have := (add_album_core _ _ _ _ hadd).2.1
      rw [this]
  · intro gv up c artist a c₁ h
    refine ⟨ensure_artist_cache_idem gv up c artist a c₁ h, ?_⟩
    intro d hd hmiss
    obtain ⟨c₀, hens, -, hbr⟩ := ensure_artist_cache_ok gv up c artist a c₁ h
    have hc₀ : c₀ = c :=
      (ensure_genre_cache_ok gv up c c₀ hens).2.2.2.2.2 d hd
    rw [hc₀] at hbr
    rcases hbr with ⟨hhit, -⟩ | ⟨-, aj, -, hadd⟩
    · rw [hmiss] at hhit
      cases hhit
    · have := (add_artist_core _ _ _ hadd).2
      rw [this]

def rockRes : Option (List Album) :=
  match ensure_genre_contents_cache gvFix upFix cacheInit "Rock" with
  | .ok (r, _) => r
  | .error _ => none

def rockState : Cache :=
  match ensure_genre_contents_cache gvFix upFix cacheInit "Rock" with
  | .ok (_, c) => c
  | .error _ => cacheInit

def dFix : List String :=
  match gcFix.display_genres with
  | some d => d
  | none => []

def linksFix : List String :=
  match lookupAssoc "Rock" glFix with
  | some ls => ls
  | none => []

def ctList : List Album :=
  match ensure_genre_contents_cache gvFix upFix gcFix "Rock" with
  | .ok (some l, _) => l
  | _ => []

def ctState : Cache :=
  match ensure_genre_contents_cache gvFix upFix gcFix "Rock" with
  | .ok (_, c) => c
  | _ => cacheInit

def albFixA : Album :=
  match ensure_album_cache gvFix upFix gcFix "1" with
  | .ok (a, _) => a
  | .error _ => albumDefault

def albFixSt : Cache :=
  match ensure_album_cache gvFix upFix gcFix "1" with
  | .ok (_, c) => c
  | .error _ => cacheInit

def artistDefault : Artist := ⟨"", []⟩

def artFixA : Artist :=
  match ensure_artist_cache gvFix upFix gcFix "Bob" with
  | .ok (a, _) => a
  | .error _ => artistDefault

def artFixSt : Cache :=
  match ensure_artist_cache gvFix upFix gcFix "Bob" with
  | .ok (_, c) => c
  | .error _ => cacheInit

theorem ensure_operations_idempotent_witness :
    ensure_genre_cache gvFix upFix gcFix = .ok gcFix ∧
    gcFix.log = (upFix.server ++ "/genres") :: cacheInit.log ∧
    ensure_genre_contents_cache gvFix upFix rockState "Rock" =
      .ok (rockRes, rockState) ∧
    ctState.log = (linksFix.map (genreContentsUrl upFix)).reverse ++ gcFix.log ∧
    ensure_album_cache gvFix upFix albFixSt "1" = .ok (albFixA, albFixSt) ∧
    albFixSt.log = albumUrl upFix "1" :: gcFix.log ∧
    ensure_artist_cache gvFix upFix artFixSt "Bob" = .ok (artFixA, artFixSt) ∧
    artFixSt.log = artistUrl upFix "Bob" :: gcFix.log :=
  ⟨(ensure_operations_idempotent.1 gvFix upFix cacheInit gcFix rfl).1,
   (ensure_operations_idempotent.1 gvFix upFix cacheInit gcFix rfl).2.1 rfl,
   ensure_operations_idempotent.2.1 gvFix upFix cacheInit "Rock" rockRes
     rockState rfl,
   (ensure_operations_idempotent.2.2.1 gvFix upFix gcFix "Rock" glFix linksFix
     ctList ctState dFix rfl rfl rfl rfl rfl).1,
   (ensure_operations_idempotent.2.2.2.1 gvFix upFix gcFix "1" albFixA albFixSt
     rfl).1,
   (ensure_operations_idempotent.2.2.2.1 gvFix upFix gcFix "1" albFixA albFixSt
     rfl).2 dFix rfl rfl,
   (ensure_operations_idempotent.2.2.2.2 gvFix upFix gcFix "Bob" artFixA
     artFixSt rfl).1,
   (ensure_operations_idempotent.2.2.2.2 gvFix upFix gcFix "Bob" artFixA
     artFixSt rfl).2 dFix rfl rfl⟩
